import Mathlib

/-!
Verification of the onesign-qr rendering and URL-validation core.

Shallow embedding of the QR styling/export pipeline of the repository
(`src/lib/qr/shapes.ts`, `src/lib/qr/svg-builder.ts`,
`src/lib/qr/exporters/svg.ts`, `src/lib/qr/exporters/png.ts`) and of the
destination-URL validator (`src/lib/security/url-validator.ts`, constants
from `src/lib/constants.ts`), together with proofs of the specification
claims about them.

Conventions:
* JavaScript strings are modelled as Lean `String` (lists of characters);
  `.length` counts characters, which agrees with JS code-unit length on the
  basic multilingual plane inputs the claims are about.
* The WHATWG `URL` platform primitive is modelled by an abstract parse
  oracle `String → Option URLRec`, where a `URLRec` carries exactly the
  components the source reads (`protocol`, `username`, `password`,
  `hostname`) plus `serialized`, the canonical re-serialization returned by
  `url.toString()`.
* JS regular-expression `replace` calls are embedded as equivalent
  character-list scanners (structural recursion so everything computes).
-/

/-! ## Characters and JS string primitives -/

/-- The JavaScript `\s` class (also used by `String.prototype.trim`):
space, tab, LF, VT, FF, CR, NBSP, BOM and the Unicode space separators. -/
def isJsWs (c : Char) : Bool :=
  c == ' ' || c == '\t' || c == '\n' || c.toNat == 0x0b || c.toNat == 0x0c ||
  c == '\r' || c.toNat == 0xA0 || c.toNat == 0xFEFF || c.toNat == 0x1680 ||
  (0x2000 ≤ c.toNat && c.toNat ≤ 0x200A) || c.toNat == 0x2028 ||
  c.toNat == 0x2029 || c.toNat == 0x202F || c.toNat == 0x205F ||
  c.toNat == 0x3000

/-- JS `String.prototype.trim`: drop JS whitespace from both ends (list form). -/
def jsTrimList (l : List Char) : List Char :=
  (((l.dropWhile isJsWs).reverse.dropWhile isJsWs)).reverse

/-- JS `String.prototype.trim` on strings. -/
def jsTrim (s : String) : String := ⟨jsTrimList s.data⟩

/-- JS `String.prototype.toLowerCase`, restricted to ASCII case mapping
(hostnames produced by the URL parser are ASCII). -/
def jsToLower (s : String) : String := ⟨s.data.map Char.toLower⟩

/-- JS `String.prototype.startsWith`. -/
def jsStartsWith (s pre : String) : Bool := pre.data.isPrefixOf s.data

/-- JS `String.prototype.endsWith`. -/
def jsEndsWith (s post : String) : Bool := post.data.isSuffixOf s.data

/-! ## URL validator (`src/lib/security/url-validator.ts`) -/

/-- The components of a parsed WHATWG `URL` object that the validator
reads, plus its canonical re-serialization (`toString()`). -/
structure URLRec where
  protocol : String
  username : String
  password : String
  hostname : String
  serialized : String
deriving DecidableEq, Repr

/-- Constant `URL_VALIDATION.MAX_LENGTH` from `src/lib/constants.ts`. -/
def URL_VALIDATION_MAX_LENGTH : Nat := 2048

/-- Constant `URL_VALIDATION.ALLOWED_PROTOCOLS` from `src/lib/constants.ts`. -/
def URL_VALIDATION_ALLOWED_PROTOCOLS : List String := ["http:", "https:"]

/-- Constant `URL_VALIDATION.BLOCKED_HOSTNAMES` from `src/lib/constants.ts`. -/
def URL_VALIDATION_BLOCKED_HOSTNAMES : List String :=
  ["localhost", "127.0.0.1", "0.0.0.0", "::1",
   "metadata.google.internal", "169.254.169.254"]

/-- Constant `METADATA_ENDPOINTS` from `url-validator.ts`. -/
def METADATA_ENDPOINTS : List String :=
  ["169.254.169.254", "metadata.google.internal",
   "metadata.azure.com", "100.100.100.200"]

/-- The regex `/^172\.(1[6-9]|2[0-9]|3[01])\./` from `PRIVATE_IP_PATTERNS`:
the string starts with `172.`, then a two-digit group `16`–`31`, then `.`. -/
def matches172Range (s : String) : Bool :=
  match s.data with
  | '1' :: '7' :: '2' :: '.' :: a :: b :: '.' :: _ =>
      (a == '1' && ('6' ≤ b && b ≤ '9')) ||
      (a == '2' && ('0' ≤ b && b ≤ '9')) ||
      (a == '3' && (b == '0' || b == '1'))
  | _ => false

/-- Function `isPrivateIp` from `url-validator.ts`: the IPv4 prefix patterns, the
IPv6 patterns and the metadata-endpoint list, tested in source order. -/
def isPrivateIp (ip : String) : Bool :=
  -- PRIVATE_IP_PATTERNS
  (jsStartsWith ip "10." || matches172Range ip || jsStartsWith ip "192.168." ||
   jsStartsWith ip "127." || jsStartsWith ip "169.254." || jsStartsWith ip "0.") ||
  -- PRIVATE_IPV6_PATTERNS (input is already lowercased by the caller;
  -- the `i` flag also matches uppercase, covered via the lowercase test)
  ((jsToLower ip == "::1") || jsStartsWith (jsToLower ip) "fe80:" ||
   jsStartsWith (jsToLower ip) "fc00:" || jsStartsWith (jsToLower ip) "fd") ||
  -- METADATA_ENDPOINTS.includes(ip.toLowerCase())
  (METADATA_ENDPOINTS.contains (jsToLower ip))

/-- Function `isBlockedHostname` from `url-validator.ts`. -/
def isBlockedHostname (hostname : String) : Bool :=
  let lower := jsToLower hostname
  URL_VALIDATION_BLOCKED_HOSTNAMES.contains lower ||
  (lower == "localhost" || jsEndsWith lower ".localhost") ||
  jsEndsWith lower ".local" ||
  isPrivateIp lower

/-- Result type `UrlValidationResult` from `url-validator.ts`. -/
structure UrlValidationResult where
  isValid : Bool
  error : Option String
  normalizedUrl : Option String
deriving DecidableEq, Repr

/-- Function `validateUrl` from `url-validator.ts`, with the WHATWG `URL`
constructor supplied as a parse oracle (`none` models the constructor
throwing). -/
def validateUrl (parse : String → Option URLRec) (input : String) :
    UrlValidationResult :=
  let trimmed := jsTrim input
  if trimmed == "" then
    ⟨false, some "URL is required", none⟩
  else if URL_VALIDATION_MAX_LENGTH < trimmed.length then
    ⟨false, some "URL is too long (max 2048 characters)", none⟩
  else
    match parse trimmed with
    | none => ⟨false, some "Invalid URL format", none⟩
    | some url =>
      if !(URL_VALIDATION_ALLOWED_PROTOCOLS.contains url.protocol) then
        ⟨false, some "Only HTTP and HTTPS URLs are allowed", none⟩
      else if isBlockedHostname url.hostname then
        ⟨false, some "This hostname is not allowed", none⟩
      else if url.username != "" || url.password != "" then
        ⟨false, some "URLs with embedded credentials are not allowed", none⟩
      else
        ⟨true, none, some url.serialized⟩

/-- Function `validateRedirectUrl` from `url-validator.ts`. -/
def validateRedirectUrl (parse : String → Option URLRec) (url : String) :
    Bool :=
  match parse url with
  | none => false
  | some parsed => URL_VALIDATION_ALLOWED_PROTOCOLS.contains parsed.protocol

/-! ## SVG optimizer (`src/lib/qr/exporters/svg.ts`)

Here `optimizeSVG` chains four JS string operations: a replace of
`/<!--[\s\S]*?-->/g` by nothing, a replace of `/\s+/g` by a space, a
replace of `/>\s+</g` by `><`, and `.trim()`.  Each replace is embedded as a
left-to-right scanner with the same semantics (a match is consumed and
scanning resumes after it; on failure the scanner advances one character,
matching the regex engine). -/

/-- Scanner for the removal of `/<!--[\s\S]*?-->/g`.  The state is `none` outside a
comment; `some buf` means an (unconfirmed) comment opener `<!--` was seen
and `buf` holds the characters read since, in reverse — if the input ends
with no closing `-->`, the regex never matched there and the raw text is
emitted unchanged. -/
def removeCommentsAux : List Char → Option (List Char) → List Char
  | '<' :: '!' :: '-' :: '-' :: rest, none => removeCommentsAux rest (some [])
  | c :: rest, none => c :: removeCommentsAux rest none
  | [], none => []
  | '-' :: '-' :: '>' :: rest, some _ => removeCommentsAux rest none
  | c :: rest, some buf => removeCommentsAux rest (some (c :: buf))
  | [], some buf => '<' :: '!' :: '-' :: '-' :: buf.reverse

/-- Stage `.replace(/<!--[\s\S]*?-->/g, ...)` of `optimizeSVG`, on strings. -/
def removeComments (s : String) : String := ⟨removeCommentsAux s.data none⟩

/-- Scanner for the replacement of `/\s+/g` by ' ': the flag records whether the previous
character belonged to a whitespace run already replaced by `' '`. -/
def collapseWsAux : List Char → Bool → List Char
  | [], _ => []
  | c :: rest, prevWs =>
    if isJsWs c then
      if prevWs then collapseWsAux rest true
      else ' ' :: collapseWsAux rest true
    else c :: collapseWsAux rest false

/-- Stage `.replace(/\s+/g, ...)` of `optimizeSVG`, on strings. -/
def collapseWs (s : String) : String := ⟨collapseWsAux s.data false⟩

/-- Scanner for the replacement of `/>\s+</g` by `><`.  State `some buf` means a `>` was
emitted and `buf` holds the (reversed) whitespace run read since; if a `<`
follows, the run is dropped (the match), otherwise it is flushed. -/
def stripBetweenAux : List Char → Option (List Char) → List Char
  | [], none => []
  | [], some buf => buf.reverse
  | c :: rest, none =>
    if c == '>' then '>' :: stripBetweenAux rest (some [])
    else c :: stripBetweenAux rest none
  | c :: rest, some buf =>
    if isJsWs c then stripBetweenAux rest (some (c :: buf))
    else if c == '<' then '<' :: stripBetweenAux rest none
    else if c == '>' then buf.reverse ++ '>' :: stripBetweenAux rest (some [])
    else buf.reverse ++ c :: stripBetweenAux rest none

/-- Stage `.replace(/>\s+</g, ...)` of `optimizeSVG`, on strings. -/
def stripBetween (s : String) : String := ⟨stripBetweenAux s.data none⟩

/-- Function `optimizeSVG` from `src/lib/qr/exporters/svg.ts`. -/
def optimizeSVG (svgString : String) : String :=
  jsTrim (stripBetween (collapseWs (removeComments svgString)))

/-! ## Shape library (`src/lib/qr/shapes.ts`) -/

/-- Enum `ModuleShape` from `shapes.ts`. -/
inductive ModuleShape | square | rounded | dots | diamond
deriving DecidableEq, Repr

/-- Enum `EyeShape` from `shapes.ts`. -/
inductive EyeShape | square | rounded | circle
deriving DecidableEq, Repr

/-- Decimal digit character. -/
def digitChar (d : Nat) : Char := Char.ofNat (48 + d)

/-- Decimal digits of `n` (most significant first); fuel-indexed so the
definition is structural (`n + 1` fuel always suffices). -/
def natCharsAux : Nat → Nat → List Char
  | 0, _ => []
  | fuel + 1, n =>
    if n < 10 then [digitChar n]
    else natCharsAux fuel (n / 10) ++ [digitChar (n % 10)]

/-- Decimal rendering of a natural number, as JS renders an integral
`number` into a template literal. -/
def natRepr (n : Nat) : String := ⟨natCharsAux (n + 1) n⟩

/-- Decimal rendering of a quantity measured in tenths: the fractional
shape constants of the source (`0.3`, `0.5`, `1.5`, `2.5`, `3.5` × size) are
all exact multiples of one tenth, which JS prints as at most one decimal
digit.  `tenthsRepr (10*n) = natRepr n`, `tenthsRepr 43 = "4.3"`. -/
def tenthsRepr (t : Nat) : String :=
  if t % 10 == 0 then natRepr (t / 10)
  else natRepr (t / 10) ++ "." ++ ⟨[digitChar (t % 10)]⟩

/-- Function `getModulePath` from `shapes.ts`.  Here `x`, `y` and `size` are the integral
module-grid coordinates the SVG builder passes in; the fractional
arithmetic of the non-square branches is carried out exactly in tenths. -/
def getModulePath (shape : ModuleShape) (x y size : Nat) : String :=
  match shape with
  | .square =>
    "M" ++ natRepr x ++ "," ++ natRepr y ++ "h" ++ natRepr size ++ "v" ++
    natRepr size ++ "h-" ++ natRepr size ++ "Z"
  | .rounded =>
    -- r = size * 0.3
    let r := 3 * size          -- tenths
    let side := 10 * size - 2 * r
    "M" ++ tenthsRepr (10 * x + r) ++ "," ++ natRepr y ++ "h" ++
    tenthsRepr side ++ "a" ++ tenthsRepr r ++ "," ++ tenthsRepr r ++
    " 0 0 1 " ++ tenthsRepr r ++ "," ++ tenthsRepr r ++ "v" ++
    tenthsRepr side ++ "a" ++ tenthsRepr r ++ "," ++ tenthsRepr r ++
    " 0 0 1 -" ++ tenthsRepr r ++ "," ++ tenthsRepr r ++ "h-" ++
    tenthsRepr side ++ "a" ++ tenthsRepr r ++ "," ++ tenthsRepr r ++
    " 0 0 1 -" ++ tenthsRepr r ++ ",-" ++ tenthsRepr r ++ "v-" ++
    tenthsRepr side ++ "a" ++ tenthsRepr r ++ "," ++ tenthsRepr r ++
    " 0 0 1 " ++ tenthsRepr r ++ ",-" ++ tenthsRepr r ++ "Z"
  | .dots =>
    -- radius = size / 2, cx = x + radius, cy = y + radius
    let radius := 5 * size     -- tenths
    let cx := 10 * x + radius
    let cy := 10 * y + radius
    "M" ++ tenthsRepr cx ++ "," ++ tenthsRepr cy ++ "m-" ++
    tenthsRepr radius ++ ",0a" ++ tenthsRepr radius ++ "," ++
    tenthsRepr radius ++ " 0 1,0 " ++ natRepr size ++ ",0a" ++
    tenthsRepr radius ++ "," ++ tenthsRepr radius ++ " 0 1,0 -" ++
    natRepr size ++ ",0"
  | .diamond =>
    let half := 5 * size       -- tenths
    "M" ++ tenthsRepr (10 * x + half) ++ "," ++ natRepr y ++ "L" ++
    natRepr (x + size) ++ "," ++ tenthsRepr (10 * y + half) ++ "L" ++
    tenthsRepr (10 * x + half) ++ "," ++ natRepr (y + size) ++ "L" ++
    natRepr x ++ "," ++ tenthsRepr (10 * y + half) ++ "Z"

/-- One SVG `<rect>` as emitted by the square finder-pattern branch. -/
def finderRect (x y w : Nat) (fill : String) : String :=
  "<rect x=\"" ++ natRepr x ++ "\" y=\"" ++ natRepr y ++ "\" width=\"" ++
  natRepr w ++ "\" height=\"" ++ natRepr w ++ "\" fill=\"" ++ fill ++ "\"/>"

/-- One SVG `<rect>` with corner radius, as emitted by the rounded branch. -/
def finderRoundedRect (x y w rx : Nat) (fill : String) : String :=
  "<rect x=\"" ++ natRepr x ++ "\" y=\"" ++ natRepr y ++ "\" width=\"" ++
  natRepr w ++ "\" height=\"" ++ natRepr w ++ "\" rx=\"" ++ tenthsRepr rx ++
  "\" fill=\"" ++ fill ++ "\"/>"

/-- One SVG `<circle>`, as emitted by the circle branch (radius in tenths). -/
def finderCircle (cx cy r : Nat) (fill : String) : String :=
  "<circle cx=\"" ++ tenthsRepr cx ++ "\" cy=\"" ++ tenthsRepr cy ++
  "\" r=\"" ++ tenthsRepr r ++ "\" fill=\"" ++ fill ++ "\"/>"

/-- Function `getFinderPatternPaths` from `shapes.ts`: the three concentric layers
(outer 7×7 foreground, middle 5×5 background, inner 3×3 foreground). -/
def getFinderPatternPaths (shape : EyeShape) (x y moduleSize : Nat)
    (foregroundColor backgroundColor : String) : List String :=
  match shape with
  | .square =>
    [finderRect x y (moduleSize * 7) foregroundColor,
     finderRect (x + moduleSize) (y + moduleSize) (moduleSize * 5)
       backgroundColor,
     finderRect (x + moduleSize * 2) (y + moduleSize * 2) (moduleSize * 3)
       foregroundColor]
  | .rounded =>
    [finderRoundedRect x y (moduleSize * 7) (15 * moduleSize)
       foregroundColor,
     finderRoundedRect (x + moduleSize) (y + moduleSize) (moduleSize * 5)
       (10 * moduleSize) backgroundColor,
     finderRoundedRect (x + moduleSize * 2) (y + moduleSize * 2)
       (moduleSize * 3) (5 * moduleSize) foregroundColor]
  | .circle =>
    let cx := 10 * x + 35 * moduleSize
    let cy := 10 * y + 35 * moduleSize
    [finderCircle cx cy (35 * moduleSize) foregroundColor,
     finderCircle cx cy (25 * moduleSize) backgroundColor,
     finderCircle cx cy (15 * moduleSize) foregroundColor]

/-- Predicate `isFinderPattern` from `shapes.ts` (JS numbers carried as integers). -/
def isFinderPattern (row col size : Int) : Bool :=
  if row ≤ 6 ∧ col ≤ 6 then true
  else if row ≤ 6 ∧ size - 7 ≤ col then true
  else if size - 7 ≤ row ∧ col ≤ 6 then true
  else false

/-- Predicate `isFinderSeparator` from `shapes.ts`. -/
def isFinderSeparator (row col size : Int) : Bool :=
  if (row = 7 ∧ col ≤ 7) ∨ (col = 7 ∧ row ≤ 7) then true
  else if (row = 7 ∧ size - 8 ≤ col) ∨ (col = size - 8 ∧ row ≤ 7) then true
  else if (row = size - 8 ∧ col ≤ 7) ∨ (col = 7 ∧ size - 8 ≤ row) then true
  else false

/-! ## SVG builder (`src/lib/qr/svg-builder.ts`) -/

/-- Type `QRMatrix` (see `src/types/qr.ts`): a square module grid; the
`modules.get(row, col)` accessor is modelled as a Boolean function. -/
structure QRMatrix where
  size : Nat
  modules : Nat → Nat → Bool

/-- Type `QRStyleConfig` (the fields `buildStyledSVG` reads).  Here `logoSizeRatio`
is carried in hundredths (the 0.10–0.30 source fraction ×100) so the
logo arithmetic stays exact. -/
structure QRStyleConfig where
  foregroundColor : String
  backgroundColor : String
  quietZone : Nat
  moduleShape : ModuleShape
  eyeShape : EyeShape
  logoSizeRatio : Option Nat

/-- Type `SVGOptions` from `svg-builder.ts`. -/
structure SVGOptions where
  includeXmlDeclaration : Bool

/-- The module double loop of `buildStyledSVG`: for every cell, in
row-major order, skip finder-pattern cells, skip separator cells, skip
light cells, and otherwise emit the module-shape fragment at grid position
`(quietZone + col, quietZone + row)` (moduleSize = 1). -/
def modulePaths (matrix : QRMatrix) (style : QRStyleConfig) : List String :=
  (List.range matrix.size).flatMap fun (row : Nat) =>
    (List.range matrix.size).filterMap fun (col : Nat) =>
      if isFinderPattern (row : Int) (col : Int) (matrix.size : Int) then none
      else if isFinderSeparator (row : Int) (col : Int) (matrix.size : Int) then none
      else if matrix.modules row col then
        some (getModulePath style.moduleShape (style.quietZone + col)
          (style.quietZone + row) 1)
      else none

/-- The coordinates at which the module loop emits a fragment (same loop,
same guards, collecting `(row, col)` instead of the path string). -/
def moduleCells (matrix : QRMatrix) : List (Nat × Nat) :=
  (List.range matrix.size).flatMap fun (row : Nat) =>
    (List.range matrix.size).filterMap fun (col : Nat) =>
      if isFinderPattern (row : Int) (col : Int) (matrix.size : Int) then none
      else if isFinderSeparator (row : Int) (col : Int) (matrix.size : Int) then none
      else if matrix.modules row col then some (row, col)
      else none

/-- The three `getFinderPatternPaths` calls of `buildStyledSVG`, in source
order: top-left, top-right, bottom-left (moduleSize = 1). -/
def finderPatternsList (matrix : QRMatrix) (style : QRStyleConfig) :
    List String :=
  getFinderPatternPaths style.eyeShape style.quietZone style.quietZone 1
    style.foregroundColor style.backgroundColor ++
  getFinderPatternPaths style.eyeShape
    (style.quietZone + (matrix.size - 7)) style.quietZone 1
    style.foregroundColor style.backgroundColor ++
  getFinderPatternPaths style.eyeShape style.quietZone
    (style.quietZone + (matrix.size - 7)) 1
    style.foregroundColor style.backgroundColor

/-- Integer rendering (JS prints negative values with a leading minus). -/
def intRepr (i : Int) : String :=
  if i < 0 then "-" ++ natRepr i.natAbs else natRepr i.natAbs

/-- Decimal rendering of a value measured in units of 1/20000 (every
quantity in the logo block is such a multiple, so the expansion below is
exact and terminates within five fractional digits). -/
def unitsRepr (units : Int) : String :=
  if units < 0 then "-" ++ unitsReprNat units.natAbs
  else unitsReprNat units.natAbs
where
  unitsReprNat (u : Nat) : String :=
    let scaled := u * 5        -- value = scaled / 100000
    let ip := scaled / 100000
    let fp := scaled % 100000
    if fp == 0 then natRepr ip
    else
      let digits := natCharsAux (fp + 1) fp
      let padded := List.replicate (5 - digits.length) '0' ++ digits
      natRepr ip ++ "." ++ ⟨(padded.reverse.dropWhile (· == '0')).reverse⟩

/-- The logo block of `buildStyledSVG`: empty unless both a data URI and a
non-zero ratio are supplied (JS truthiness of `style.logoSizeRatio`);
otherwise a background padding rect (padding = 15% of the logo size)
followed by the image element.  All lengths are exact in 1/20000 units:
logoSize = viewBoxSize·ratio/100, logoX = logoY = (viewBoxSize−logoSize)/2,
padding = 0.15·logoSize. -/
def logoElementString (style : QRStyleConfig) (logoDataUri : Option String)
    (viewBoxSize : Nat) : String :=
  match logoDataUri, style.logoSizeRatio with
  | some uri, some ratio =>
    if ratio == 0 then ""
    else
      let logoSize : Int := (viewBoxSize * ratio * 200 : Nat)
      let logoX : Int := (10000 * viewBoxSize : Nat) - (viewBoxSize * ratio * 100 : Nat)
      let padding : Int := (viewBoxSize * ratio * 30 : Nat)
      "\n    <rect\n      x=\"" ++ unitsRepr (logoX - padding) ++
      "\"\n      y=\"" ++ unitsRepr (logoX - padding) ++
      "\"\n      width=\"" ++ unitsRepr (logoSize + padding * 2) ++
      "\"\n      height=\"" ++ unitsRepr (logoSize + padding * 2) ++
      "\"\n      fill=\"" ++ style.backgroundColor ++
      "\"\n    />\n    <image\n      href=\"" ++ uri ++
      "\"\n      x=\"" ++ unitsRepr logoX ++
      "\"\n      y=\"" ++ unitsRepr logoX ++
      "\"\n      width=\"" ++ unitsRepr logoSize ++
      "\"\n      height=\"" ++ unitsRepr logoSize ++
      "\"\n      preserveAspectRatio=\"xMidYMid meet\"\n    />"
  | _, _ => ""

/-- Function `buildStyledSVG` from `svg-builder.ts`. -/
def buildStyledSVG (matrix : QRMatrix) (style : QRStyleConfig)
    (logoDataUri : Option String) (options : SVGOptions) : String :=
  let viewBoxSize := matrix.size + style.quietZone * 2
  let xmlDecl :=
    if options.includeXmlDeclaration then
      "<?xml version=\"1.0\" encoding=\"UTF-8\"?>\n"
    else ""
  xmlDecl ++
  "<svg\n  xmlns=\"http://www.w3.org/2000/svg\"\n  xmlns:xlink=\"http://www.w3.org/1999/xlink\"\n  viewBox=\"0 0 " ++
  natRepr viewBoxSize ++ " " ++ natRepr viewBoxSize ++
  "\"\n  shape-rendering=\"crispEdges\"\n>\n  <rect width=\"100%\" height=\"100%\" fill=\"" ++
  style.backgroundColor ++ "\"/>\n  <path fill=\"" ++
  style.foregroundColor ++ "\" d=\"" ++
  String.join (modulePaths matrix style) ++ "\"/>\n  " ++
  String.intercalate "\n  " (finderPatternsList matrix style) ++ "\n  " ++
  logoElementString style logoDataUri viewBoxSize ++ "\n</svg>"

/-! ## PNG exporter (`src/lib/qr/exporters/png.ts`)

`svgToPng`/`svgToPngTransparent` hand the SVG bytes straight to the
`sharp` rasterizer; the embedding records the single rasterizer invocation
each of them performs (its input and every parameter the source passes). -/

/-- The one `sharp(...).resize(...).png(...)` invocation. -/
structure SharpResizeCall where
  input : String
  width : Int
  height : Int
  fit : String
  bgR : Nat
  bgG : Nat
  bgB : Nat
  bgAlpha : Nat
  compressionLevel : Nat
  quality : Option Nat
deriving DecidableEq, Repr

/-- Function `svgToPng` from `png.ts`: resize to `width × width`, fit `contain`,
opaque white background, compression 9, quality 100. -/
def svgToPng (svgString : String) (width : Int) : SharpResizeCall :=
  ⟨svgString, width, width, "contain", 255, 255, 255, 1, 9, some 100⟩

/-- Function `svgToPngTransparent` from `png.ts`: resize to `width × width`, fit
`contain`, fully transparent background, compression 9. -/
def svgToPngTransparent (svgString : String) (width : Int) :
    SharpResizeCall :=
  ⟨svgString, width, width, "contain", 0, 0, 0, 0, 9, none⟩

/-! ## Substring counting (for the single-path-element claim) -/

/-- Number of (possibly overlapping) occurrences of `pat` in `l`. -/
def countOccur (pat : List Char) : List Char → Nat
  | [] => 0
  | c :: t => (if pat.isPrefixOf (c :: t) then 1 else 0) + countOccur pat t

/-! ## Spec-side predicates (stated from the words of the claims, for the
refinement-style parts of C1 and C9) -/

/-- A digit character. -/
def isDigitCh (c : Char) : Bool := '0' ≤ c && c ≤ '9'

/-- A canonical IPv4 dotted-quad component: non-empty, all digits, value
at most 255, written without leading zeros (as the WHATWG parser emits). -/
def ipv4Component? (l : List Char) : Option Nat :=
  if l ≠ [] ∧ l.all isDigitCh then
    let v := l.foldl (fun acc c => 10 * acc + (c.toNat - 48)) 0
    if v ≤ 255 ∧ (natRepr v).data = l then some v else none
  else none

/-- Split a character list on `'.'` separators. -/
def splitDots : List Char → List (List Char)
  | [] => [[]]
  | '.' :: rest => [] :: splitDots rest
  | c :: rest =>
    match splitDots rest with
    | comp :: comps => (c :: comp) :: comps
    | [] => [[c]]

/-- Parse a canonical IPv4 dotted-quad hostname. -/
def parseIPv4 (s : String) : Option (Nat × Nat × Nat × Nat) :=
  match splitDots s.data with
  | [a, b, c, d] =>
    match ipv4Component? a, ipv4Component? b, ipv4Component? c,
        ipv4Component? d with
    | some va, some vb, some vc, some vd => some (va, vb, vc, vd)
    | _, _, _, _ => none
  | _ => none

/-- Ranges from claim C1 (private/loopback/link-local/current-network IPv4):
10.0.0.0/8, 172.16.0.0/12, 192.168.0.0/16, 127.0.0.0/8, 169.254.0.0/16,
0.0.0.0/8. -/
def specPrivateIPv4Range (q : Nat × Nat × Nat × Nat) : Bool :=
  q.1 == 10 || (q.1 == 172 && (16 ≤ q.2.1 && q.2.1 ≤ 31)) ||
  (q.1 == 192 && q.2.1 == 168) || q.1 == 127 ||
  (q.1 == 169 && q.2.1 == 254) || q.1 == 0

/-- Blocked-hostname condition of claim C1, stated from the words of the claim:
explicit blocklist, private/loopback/link-local/current-network IPv4
ranges, the IPv6 patterns `::1`/`fe80:`/`fc00:`/`fd`, `localhost`,
`.localhost` and `.local` suffixes — all on the lowercased literal
hostname text. -/
def specBlockedHost (hostname : String) : Bool :=
  let l := jsToLower hostname
  URL_VALIDATION_BLOCKED_HOSTNAMES.contains l ||
  (match parseIPv4 l with
   | some q => specPrivateIPv4Range q
   | none => false) ||
  l == "::1" || jsStartsWith l "fe80:" || jsStartsWith l "fc00:" ||
  jsStartsWith l "fd" ||
  l == "localhost" || jsEndsWith l ".localhost" || jsEndsWith l ".local"

/-- Hostname prefixes from claim C9. -/
def specPrivatePrefixes : List String :=
  ["10.", "192.168.", "127.", "169.254.", "0.",
   "172.16.", "172.17.", "172.18.", "172.19.", "172.20.", "172.21.",
   "172.22.", "172.23.", "172.24.", "172.25.", "172.26.", "172.27.",
   "172.28.", "172.29.", "172.30.", "172.31."]

/-- Condition from claim C9: the parsed hostname begins with one of the
private-network text prefixes (case-insensitively). -/
def specHostnameHasPrivatePrefix (hostname : String) : Bool :=
  specPrivatePrefixes.any fun p => jsStartsWith (jsToLower hostname) p

/-- A concrete parse oracle recording what the WHATWG `URL` constructor
returns on the handful of inputs the claim examples use (used only to
instantiate witnesses). -/
def demoParse : String → Option URLRec := fun s =>
  if s = "https://example.com/menu" then
    some ⟨"https:", "", "", "example.com", "https://example.com/menu"⟩
  else if s = "javascript:alert(1)" then
    some ⟨"javascript:", "", "", "", "javascript:alert(1)"⟩
  else if s = "http://169.254.169.254/latest/meta-data" then
    some ⟨"http:", "", "", "169.254.169.254",
      "http://169.254.169.254/latest/meta-data"⟩
  else if s = "http://10.0.0.5/" then
    some ⟨"http:", "", "", "10.0.0.5", "http://10.0.0.5/"⟩
  else if s = "http://10.example.com/" then
    some ⟨"http:", "", "", "10.example.com", "http://10.example.com/"⟩
  else none

/-- The style of claim C7: black on white, quiet zone 4, square modules,
square eyes, no logo. -/
def c7Style : QRStyleConfig := ⟨"#000000", "#FFFFFF", 4, .square, .square, none⟩

/-- Everything `buildStyledSVG` emits before the consolidated module path
data for a 21-module matrix under `c7Style` (note the viewBox `0 0 29 29`
and the single `<path` element opener). -/
def c7Head : String :=
  "<?xml version=\"1.0\" encoding=\"UTF-8\"?>\n<svg\n  xmlns=\"http://www.w3.org/2000/svg\"\n  xmlns:xlink=\"http://www.w3.org/1999/xlink\"\n  viewBox=\"0 0 29 29\"\n  shape-rendering=\"crispEdges\"\n>\n  <rect width=\"100%\" height=\"100%\" fill=\"#FFFFFF\"/>\n  <path fill=\"#000000\" d=\""

/-- Everything `buildStyledSVG` emits after the consolidated module path
data for a 21-module matrix under `c7Style`: the three finder-pattern
triples (nine `<rect`s, anchored at (4,4), (18,4) and (4,18)) and the
closing tag. -/
def c7Tail : String :=
  "\"/>\n  <rect x=\"4\" y=\"4\" width=\"7\" height=\"7\" fill=\"#000000\"/>\n  <rect x=\"5\" y=\"5\" width=\"5\" height=\"5\" fill=\"#FFFFFF\"/>\n  <rect x=\"6\" y=\"6\" width=\"3\" height=\"3\" fill=\"#000000\"/>\n  <rect x=\"18\" y=\"4\" width=\"7\" height=\"7\" fill=\"#000000\"/>\n  <rect x=\"19\" y=\"5\" width=\"5\" height=\"5\" fill=\"#FFFFFF\"/>\n  <rect x=\"20\" y=\"6\" width=\"3\" height=\"3\" fill=\"#000000\"/>\n  <rect x=\"4\" y=\"18\" width=\"7\" height=\"7\" fill=\"#000000\"/>\n  <rect x=\"5\" y=\"19\" width=\"5\" height=\"5\" fill=\"#FFFFFF\"/>\n  <rect x=\"6\" y=\"20\" width=\"3\" height=\"3\" fill=\"#000000\"/>\n  \n</svg>"

/-- Normalized whitespace, the shape `collapseWs` produces: every
whitespace character is a plain space and no two adjacent characters are
both whitespace. -/
def wsNormB : List Char → Bool
  | [] => true
  | [c] => !(isJsWs c) || (c == ' ')
  | a :: b :: t =>
    ((!(isJsWs a)) || (a == ' ')) && (!(isJsWs a && isJsWs b)) &&
      wsNormB (b :: t)

/-- Whether the list contains the three-character window `> <` — in a
ws-normalized string, the only way to match `/>\s+</`. -/
def hasPat : List Char → Bool
  | '>' :: ' ' :: '<' :: _ => true
  | _ :: rest => hasPat rest
  | [] => false

/-- Whether a list begins with `' '` followed by `'<'` (the tail of a
`> <` window). -/
def gapHead : List Char → Bool
  | ' ' :: '<' :: _ => true
  | _ => false

/-! # Theorems -/

/-! ## C3: the redirect-time re-check -/

/-- The allow-list contains exactly the two web protocols. -/
theorem contains_protocols (p : String) :
    URL_VALIDATION_ALLOWED_PROTOCOLS.contains p = true ↔
      (p = "http:" ∨ p = "https:") := by
  simp [URL_VALIDATION_ALLOWED_PROTOCOLS, List.elem_iff]

/-- C3: for every input string, `validateRedirectUrl` returns `true` iff
the string parses as a URL whose protocol is exactly `http:` or `https:`;
it performs no hostname, length, or credential checks, and returns `false`
(the model of "never throws") when parsing fails. -/
theorem c3_validateRedirectUrl_protocol_only
    (parse : String → Option URLRec) (s : String) :
    validateRedirectUrl parse s = true ↔
      ∃ u, parse s = some u ∧
        (u.protocol = "http:" ∨ u.protocol = "https:") := by
  unfold validateRedirectUrl
  cases h : parse s with
  | none => simp
  | some u =>
    simp only [Option.some.injEq]
    constructor
    · intro hc
      refine ⟨u, rfl, ?_⟩
      have := List.elem_iff.mp hc
      simpa [URL_VALIDATION_ALLOWED_PROTOCOLS] using this
    · rintro ⟨v, hv, hp⟩
      cases hv
      apply List.elem_iff.mpr
      simpa [URL_VALIDATION_ALLOWED_PROTOCOLS] using hp

/-! ## C8: the raster exporters perform no dimension validation -/

/-- C8 counterexample: with requested width −5 (non-positive), `svgToPng`
and `svgToPngTransparent` do not fail before rasterization — each issues
its rasterizer call with width −5 passed through verbatim, so no
`InvalidDimension` rejection happens (no such error exists in the code). -/
theorem c8_counterexample :
    svgToPng "<svg/>" (-5) =
      ⟨"<svg/>", -5, -5, "contain", 255, 255, 255, 1, 9, some 100⟩ ∧
    svgToPngTransparent "<svg/>" (-5) =
      ⟨"<svg/>", -5, -5, "contain", 0, 0, 0, 0, 9, none⟩ := ⟨rfl, rfl⟩

/-- C8 (amended): the raster exporters perform no width validation at all:
for every requested width, including non-positive ones, the width and the
SVG input are handed unchanged to the rasterizer invocation. -/
theorem c8_no_dimension_check (svg : String) (w : Int) (_hw : w ≤ 0) :
    (svgToPng svg w).width = w ∧ (svgToPng svg w).input = svg ∧
    (svgToPngTransparent svg w).width = w ∧
    (svgToPngTransparent svg w).input = svg :=
  ⟨rfl, rfl, rfl, rfl⟩

/-- Witness for `c8_no_dimension_check` at width −1. -/
theorem c8_no_dimension_check_witness :
    (-1 : Int) ≤ 0 ∧
    ((svgToPng "<svg/>" (-1)).width = -1 ∧
     (svgToPng "<svg/>" (-1)).input = "<svg/>" ∧
     (svgToPngTransparent "<svg/>" (-1)).width = -1 ∧
     (svgToPngTransparent "<svg/>" (-1)).input = "<svg/>") :=
  ⟨by decide, c8_no_dimension_check "<svg/>" (-1) (by decide)⟩

/-! ## C2: the `validateUrl` pipeline -/

/-- Once the trimmed input is non-empty, within the length bound and
parses, `validateUrl` is the protocol/hostname/credential check chain. -/
theorem validateUrl_parsed (parse : String → Option URLRec)
    (input : String) (u : URLRec) (h1 : jsTrim input ≠ "")
    (h2 : (jsTrim input).length ≤ 2048)
    (h3 : parse (jsTrim input) = some u) :
    validateUrl parse input =
      (if (!URL_VALIDATION_ALLOWED_PROTOCOLS.contains u.protocol) then
        ⟨false, some "Only HTTP and HTTPS URLs are allowed", none⟩
      else if isBlockedHostname u.hostname then
        ⟨false, some "This hostname is not allowed", none⟩
      else if (u.username != "" || u.password != "") then
        ⟨false, some "URLs with embedded credentials are not allowed", none⟩
      else ⟨true, none, some u.serialized⟩) := by
  unfold validateUrl
  simp only [h3, URL_VALIDATION_MAX_LENGTH]
  simp [h1, Nat.not_lt.mpr h2]

/-- C2: `validateUrl` always returns a `UrlValidationResult` (as a total
function it never throws) and applies its checks in short-circuiting
source order with the exact source error messages: empty after trim;
length over 2048; unparsable; disallowed protocol (e.g. `javascript:`);
blocked hostname; embedded credentials; otherwise success with
`normalizedUrl` the canonical re-serialization, e.g.
`validateUrl "https://example.com/menu"` normalizes to
`"https://example.com/menu"`. -/
theorem c2_validateUrl_pipeline (parse : String → Option URLRec) :
    (∀ input, jsTrim input = "" →
      validateUrl parse input = ⟨false, some "URL is required", none⟩) ∧
    (∀ input, jsTrim input ≠ "" → 2048 < (jsTrim input).length →
      validateUrl parse input =
        ⟨false, some "URL is too long (max 2048 characters)", none⟩) ∧
    (∀ input, jsTrim input ≠ "" → (jsTrim input).length ≤ 2048 →
      parse (jsTrim input) = none →
      validateUrl parse input = ⟨false, some "Invalid URL format", none⟩) ∧
    (∀ input u, jsTrim input ≠ "" → (jsTrim input).length ≤ 2048 →
      parse (jsTrim input) = some u →
      u.protocol ≠ "http:" → u.protocol ≠ "https:" →
      validateUrl parse input =
        ⟨false, some "Only HTTP and HTTPS URLs are allowed", none⟩) ∧
    (∀ input u, jsTrim input ≠ "" → (jsTrim input).length ≤ 2048 →
      parse (jsTrim input) = some u →
      (u.protocol = "http:" ∨ u.protocol = "https:") →
      isBlockedHostname u.hostname = true →
      validateUrl parse input =
        ⟨false, some "This hostname is not allowed", none⟩) ∧
    (∀ input u, jsTrim input ≠ "" → (jsTrim input).length ≤ 2048 →
      parse (jsTrim input) = some u →
      (u.protocol = "http:" ∨ u.protocol = "https:") →
      isBlockedHostname u.hostname = false →
      (u.username ≠ "" ∨ u.password ≠ "") →
      validateUrl parse input =
        ⟨false, some "URLs with embedded credentials are not allowed", none⟩) ∧
    (∀ input u, jsTrim input ≠ "" → (jsTrim input).length ≤ 2048 →
      parse (jsTrim input) = some u →
      (u.protocol = "http:" ∨ u.protocol = "https:") →
      isBlockedHostname u.hostname = false →
      u.username = "" → u.password = "" →
      validateUrl parse input = ⟨true, none, some u.serialized⟩) ∧
    (∀ u, parse "javascript:alert(1)" = some u → u.protocol = "javascript:" →
      (validateUrl parse "javascript:alert(1)").isValid = false) ∧
    (∀ u, parse "https://example.com/menu" = some u → u.protocol = "https:" →
      isBlockedHostname u.hostname = false → u.username = "" →
      u.password = "" → u.serialized = "https://example.com/menu" →
      validateUrl parse "https://example.com/menu" =
        ⟨true, none, some "https://example.com/menu"⟩) := by
  have hcont : ∀ (p : String), p = "http:" ∨ p = "https:" →
      (!URL_VALIDATION_ALLOWED_PROTOCOLS.contains p) = false := by
    intro p hp
    have h := (contains_protocols p).mpr hp
    simp only [h, Bool.not_true]
  refine ⟨?_, ?_, ?_, ?_, ?_, ?_, ?_, ?_, ?_⟩
  · intro input h
    unfold validateUrl
    simp [h]
  · intro input h1 h2
    unfold validateUrl
    simp [h1, h2, URL_VALIDATION_MAX_LENGTH]
  · intro input h1 h2 h3
    unfold validateUrl
    simp [h1, h2, h3, URL_VALIDATION_MAX_LENGTH, Nat.not_lt.mpr h2]
  · intro input u h1 h2 h3 hp1 hp2
    unfold validateUrl
    have hc : URL_VALIDATION_ALLOWED_PROTOCOLS.contains u.protocol = false := by
      rw [Bool.eq_false_iff]
      intro hcc
      rcases (contains_protocols _).mp hcc with h | h
      · exact hp1 h
      · exact hp2 h
    simp only [h3, URL_VALIDATION_MAX_LENGTH]
    simp [h1, Nat.not_lt.mpr h2, hc]
    intro hmem
    simp [URL_VALIDATION_ALLOWED_PROTOCOLS] at hmem
    rcases hmem with h | h
    · exact absurd h hp1
    · exact absurd h hp2
  · intro input u h1 h2 h3 hp hb
    rw [validateUrl_parsed parse input u h1 h2 h3, hcont u.protocol hp]
    simp [hb]
  · intro input u h1 h2 h3 hp hb hcred
    rw [validateUrl_parsed parse input u h1 h2 h3, hcont u.protocol hp]
    have hcb : (u.username != "" || u.password != "") = true := by
      rcases hcred with h | h
      · simp [bne_iff_ne, h]
      · simp [bne_iff_ne, h]
    simp [hb, hcb]
  · intro input u h1 h2 h3 hp hb hu hpw
    rw [validateUrl_parsed parse input u h1 h2 h3, hcont u.protocol hp]
    simp [hb, hu, hpw]
  · intro u hparse hproto
    have h1 : jsTrim "javascript:alert(1)" = "javascript:alert(1)" := by decide
    have h3 : parse (jsTrim "javascript:alert(1)") = some u := by
      rw [h1]; exact hparse
    rw [validateUrl_parsed parse _ u (by rw [h1]; decide) (by rw [h1]; decide) h3]
    have hc : (!URL_VALIDATION_ALLOWED_PROTOCOLS.contains u.protocol) = true := by
      rw [hproto]; decide
    rw [if_pos hc]
  · intro u hparse hproto hb hu hpw hser
    have h1 : jsTrim "https://example.com/menu" = "https://example.com/menu" := by
      decide
    have h3 : parse (jsTrim "https://example.com/menu") = some u := by
      rw [h1]; exact hparse
    rw [validateUrl_parsed parse _ u (by rw [h1]; decide) (by rw [h1]; decide) h3,
      hcont u.protocol (Or.inr hproto)]
    simp [hb, hu, hpw, hser]

/-- Witness for `c2_validateUrl_pipeline`: the success conjunct at the
concrete example URL under the concrete oracle. -/
theorem c2_validateUrl_pipeline_witness :
    validateUrl demoParse "https://example.com/menu" =
      ⟨true, none, some "https://example.com/menu"⟩ :=
  (c2_validateUrl_pipeline demoParse).2.2.2.2.2.2.2.2
    ⟨"https:", "", "", "example.com", "https://example.com/menu"⟩
    (by decide) rfl (by decide) (by decide) (by decide) (by decide)

/-- Splitting with `splitDots` never returns the empty list. -/
theorem splitDots_ne_nil (l : List Char) : splitDots l ≠ [] := by
  induction l with
  | nil => simp [splitDots]
  | cons c rest ih =>
    by_cases hc : c = '.'
    · subst hc; simp [splitDots]
    · cases hsd : splitDots rest with
      | nil => exact absurd hsd ih
      | cons comp comps => simp [splitDots, hc, hsd]

/-- Glue components back together with `'.'`. -/
def joinDots : List (List Char) → List Char
  | [] => []
  | [x] => x
  | x :: xs => x ++ '.' :: joinDots xs

/-- Gluing the pieces of `splitDots` back recovers the input. -/
theorem joinDots_splitDots (l : List Char) : joinDots (splitDots l) = l := by
  induction l with
  | nil => rfl
  | cons c rest ih =>
    by_cases hc : c = '.'
    · subst hc
      have h1 : splitDots ('.' :: rest) = [] :: splitDots rest := by
        simp [splitDots]
      rw [h1]
      cases hsd : splitDots rest with
      | nil => exact absurd hsd (splitDots_ne_nil rest)
      | cons x xs =>
        show [] ++ '.' :: joinDots (x :: xs) = '.' :: rest
        rw [← hsd, ih]
        rfl
    · cases hsd : splitDots rest with
      | nil => exact absurd hsd (splitDots_ne_nil rest)
      | cons comp comps =>
        have h1 : splitDots (c :: rest) = (c :: comp) :: comps := by
          simp [splitDots, hc, hsd]
        rw [h1]
        cases comps with
        | nil =>
          show (c :: comp) = c :: rest
          rw [hsd] at ih
          simpa [joinDots] using ih
        | cons y ys =>
          show (c :: comp) ++ '.' :: joinDots (y :: ys) = c :: rest
          rw [hsd] at ih
          simp [joinDots] at ih ⊢
          rw [← ih]

/-- Unpack a successful `ipv4Component?`. -/
theorem ipv4Component_eq (l : List Char) (v : Nat)
    (h : ipv4Component? l = some v) : (natRepr v).data = l ∧ v ≤ 255 := by
  simp only [ipv4Component?] at h
  split_ifs at h with h1 h2
  injection h with hv
  subst hv
  exact ⟨h2.2, h2.1⟩

/-- Unpack a successful `parseIPv4`. -/
theorem parseIPv4_split (s : String) (q : Nat × Nat × Nat × Nat)
    (h : parseIPv4 s = some q) :
    ∃ a b c d, splitDots s.data = [a, b, c, d] ∧
      ipv4Component? a = some q.1 ∧ ipv4Component? b = some q.2.1 ∧
      ipv4Component? c = some q.2.2.1 ∧ ipv4Component? d = some q.2.2.2 := by
  unfold parseIPv4 at h
  split at h
  · rename_i a b c d heq
    split at h
    · rename_i va vb vc vd ha hb hc hd
      injection h with hq
      subst hq
      exact ⟨a, b, c, d, heq, ha, hb, hc, hd⟩
    · cases h
  · cases h

/-- The `172.16.`–`172.31.` regex accepts any hostname whose text starts
with `172.`, a canonical two-digit 16–31 component and a dot. -/
theorem matches172_gen (l : String) (v : Nat) (t : List Char)
    (hv1 : 16 ≤ v) (hv2 : v ≤ 31)
    (h : l.data = '1' :: '7' :: '2' :: '.' :: ((natRepr v).data ++ '.' :: t)) :
    matches172Range l = true := by
  interval_cases v <;> (unfold matches172Range; rw [h]; rfl)

/-- A hostname that is a canonical dotted quad in one of the claimed
private/loopback/link-local/current-network IPv4 ranges matches the
`PRIVATE_IP_PATTERNS` list of the source. -/
theorem specPrivateIPv4_isPrivateIp (l : String) (q : Nat × Nat × Nat × Nat)
    (hp : parseIPv4 l = some q) (hr : specPrivateIPv4Range q = true) :
    isPrivateIp l = true := by
  obtain ⟨a, b, c, d, hsd, ha, hb, hc, hd⟩ := parseIPv4_split l q hp
  have hrecon : l.data = a ++ '.' :: (b ++ '.' :: (c ++ '.' :: d)) := by
    have hj := joinDots_splitDots l.data
    rw [hsd] at hj
    simpa [joinDots] using hj.symm
  obtain ⟨hadata, _⟩ := ipv4Component_eq a q.1 ha
  obtain ⟨hbdata, _⟩ := ipv4Component_eq b q.2.1 hb
  simp only [specPrivateIPv4Range, Bool.or_eq_true, Bool.and_eq_true,
    beq_iff_eq, decide_eq_true_eq] at hr
  rcases hr with ((((h10 | h172) | h192) | h127) | h169) | h0
  · -- 10.0.0.0/8
    rw [h10] at hadata
    have ha2 : a = ['1', '0'] := by rw [← hadata]; rfl
    have hred : l.data = '1' :: '0' :: '.' :: (b ++ '.' :: (c ++ '.' :: d)) := by
      rw [hrecon, ha2]; rfl
    have hpre : jsStartsWith l "10." = true := by
      unfold jsStartsWith
      rw [hred]
      simp [List.isPrefixOf]
    unfold isPrivateIp
    simp [hpre]
  · -- 172.16.0.0/12
    obtain ⟨h172a, h172b⟩ := h172
    rw [h172a] at hadata
    have ha2 : a = ['1', '7', '2'] := by rw [← hadata]; rfl
    have hm : matches172Range l = true := by
      apply matches172_gen l q.2.1 (c ++ '.' :: d) h172b.1 h172b.2
      rw [hrecon, ha2, ← hbdata]; rfl
    unfold isPrivateIp
    simp [hm]
  · -- 192.168.0.0/16
    obtain ⟨h192a, h192b⟩ := h192
    rw [h192a] at hadata
    rw [h192b] at hbdata
    have ha2 : a = ['1', '9', '2'] := by rw [← hadata]; rfl
    have hb2 : b = ['1', '6', '8'] := by rw [← hbdata]; rfl
    have hred : l.data =
        '1' :: '9' :: '2' :: '.' :: '1' :: '6' :: '8' :: '.' :: (c ++ '.' :: d) := by
      rw [hrecon, ha2, hb2]; rfl
    have hpre : jsStartsWith l "192.168." = true := by
      unfold jsStartsWith
      rw [hred]
      simp [List.isPrefixOf]
    unfold isPrivateIp
    simp [hpre]
  · -- 127.0.0.0/8
    rw [h127] at hadata
    have ha2 : a = ['1', '2', '7'] := by rw [← hadata]; rfl
    have hred : l.data = '1' :: '2' :: '7' :: '.' :: (b ++ '.' :: (c ++ '.' :: d)) := by
      rw [hrecon, ha2]; rfl
    have hpre : jsStartsWith l "127." = true := by
      unfold jsStartsWith
      rw [hred]
      simp [List.isPrefixOf]
    unfold isPrivateIp
    simp [hpre]
  · -- 169.254.0.0/16
    obtain ⟨h169a, h169b⟩ := h169
    rw [h169a] at hadata
    rw [h169b] at hbdata
    have ha2 : a = ['1', '6', '9'] := by rw [← hadata]; rfl
    have hb2 : b = ['2', '5', '4'] := by rw [← hbdata]; rfl
    have hred : l.data =
        '1' :: '6' :: '9' :: '.' :: '2' :: '5' :: '4' :: '.' :: (c ++ '.' :: d) := by
      rw [hrecon, ha2, hb2]; rfl
    have hpre : jsStartsWith l "169.254." = true := by
      unfold jsStartsWith
      rw [hred]
      simp [List.isPrefixOf]
    unfold isPrivateIp
    simp [hpre]
  · -- 0.0.0.0/8
    rw [h0] at hadata
    have ha2 : a = ['0'] := by rw [← hadata]; rfl
    have hred : l.data = '0' :: '.' :: (b ++ '.' :: (c ++ '.' :: d)) := by
      rw [hrecon, ha2]; rfl
    have hpre : jsStartsWith l "0." = true := by
      unfold jsStartsWith
      rw [hred]
      simp [List.isPrefixOf]
    unfold isPrivateIp
    simp [hpre]

/-- A prefix made of case-fixed characters survives `toLowerCase`. -/
theorem isPrefixOf_map_toLower (p : List Char) :
    ∀ l : List Char, p.map Char.toLower = p → p.isPrefixOf l = true →
      p.isPrefixOf (l.map Char.toLower) = true := by
  induction p with
  | nil => intro l _ _; simp [List.isPrefixOf]
  | cons x xs ih =>
    intro l hfix h
    cases l with
    | nil => simp [List.isPrefixOf] at h
    | cons y ys =>
      simp only [List.map_cons, List.cons.injEq] at hfix
      simp only [List.isPrefixOf, Bool.and_eq_true, beq_iff_eq] at h ⊢
      obtain ⟨h1, h2⟩ := h
      refine ⟨?_, ih ys hfix.2 h2⟩
      rw [← h1, hfix.1]

/-- Every hostname satisfying the blocked-host condition of claim C1 is caught
by `isBlockedHostname` in the source. -/
theorem specBlocked_implies_blocked (h : String)
    (hs : specBlockedHost h = true) : isBlockedHostname h = true := by
  unfold specBlockedHost at hs
  unfold isBlockedHostname
  simp only [Bool.or_eq_true] at hs ⊢
  rcases hs with ((((((((hc | hip) | h31) | hfe) | hfc) | hfd) | hlh) | hdot) | hloc)
  · exact Or.inl (Or.inl (Or.inl hc))
  · cases hq : parseIPv4 (jsToLower h) with
    | none => rw [hq] at hip; cases hip
    | some q =>
      rw [hq] at hip
      exact Or.inr (specPrivateIPv4_isPrivateIp (jsToLower h) q hq hip)
  · have hl : jsToLower h = "::1" := by simpa using h31
    have : isPrivateIp (jsToLower h) = true := by rw [hl]; decide
    exact Or.inr this
  · have : isPrivateIp (jsToLower h) = true := by
      unfold isPrivateIp
      have hp : jsStartsWith (jsToLower (jsToLower h)) "fe80:" = true := by
        unfold jsStartsWith at hfe ⊢
        exact isPrefixOf_map_toLower _ _ (by decide) hfe
      simp [hp]
    exact Or.inr this
  · have : isPrivateIp (jsToLower h) = true := by
      unfold isPrivateIp
      have hp : jsStartsWith (jsToLower (jsToLower h)) "fc00:" = true := by
        unfold jsStartsWith at hfc ⊢
        exact isPrefixOf_map_toLower _ _ (by decide) hfc
      simp [hp]
    exact Or.inr this
  · have : isPrivateIp (jsToLower h) = true := by
      unfold isPrivateIp
      have hp : jsStartsWith (jsToLower (jsToLower h)) "fd" = true := by
        unfold jsStartsWith at hfd ⊢
        exact isPrefixOf_map_toLower _ _ (by decide) hfd
      simp [hp]
    exact Or.inr this
  · exact Or.inl (Or.inl (Or.inr (Or.inl hlh)))
  · exact Or.inl (Or.inl (Or.inr (Or.inr hdot)))
  · exact Or.inl (Or.inr hloc)

/-- Whenever the hostname of the parsed URL is blocked, `validateUrl` cannot
succeed (whatever earlier check fires first). -/
theorem validateUrl_invalid_of_blocked (parse : String → Option URLRec)
    (input : String) (u : URLRec)
    (hparse : parse (jsTrim input) = some u)
    (hb : isBlockedHostname u.hostname = true) :
    (validateUrl parse input).isValid = false := by
  by_cases h1 : jsTrim input = ""
  · unfold validateUrl; simp [h1]
  · by_cases h2 : (jsTrim input).length ≤ 2048
    · rw [validateUrl_parsed parse input u h1 h2 hparse]
      cases hcc : (!URL_VALIDATION_ALLOWED_PROTOCOLS.contains u.protocol) with
      | true => simp [hcc]
      | false => simp [hcc, hb]
    · unfold validateUrl
      have h3 : 2048 < (jsTrim input).length := Nat.not_le.mp h2
      simp [h1, URL_VALIDATION_MAX_LENGTH, h3]

/-- C1: every input whose parsed hostname meets the blocklist
condition (explicit literals, private/loopback/link-local IPv4 ranges,
private IPv6 text patterns, `localhost`/`.localhost`/`.local` — matched
case-insensitively on the literal hostname text, no DNS) is rejected; in
particular the two example URLs are rejected given any parse oracle that
reports their standard hostnames. -/
theorem c1_blocked_hostnames_rejected (parse : String → Option URLRec) :
    (∀ input u, parse (jsTrim input) = some u →
      specBlockedHost u.hostname = true →
      (validateUrl parse input).isValid = false) ∧
    (∀ u, parse "http://169.254.169.254/latest/meta-data" = some u →
      u.hostname = "169.254.169.254" →
      (validateUrl parse "http://169.254.169.254/latest/meta-data").isValid
        = false) ∧
    (∀ u, parse "http://10.0.0.5/" = some u → u.hostname = "10.0.0.5" →
      (validateUrl parse "http://10.0.0.5/").isValid = false) := by
  have main : ∀ input u, parse (jsTrim input) = some u →
      specBlockedHost u.hostname = true →
      (validateUrl parse input).isValid = false := by
    intro input u hparse hspec
    exact validateUrl_invalid_of_blocked parse input u hparse
      (specBlocked_implies_blocked u.hostname hspec)
  refine ⟨main, ?_, ?_⟩
  · intro u hparse hhost
    apply main "http://169.254.169.254/latest/meta-data" u
    · rw [show jsTrim "http://169.254.169.254/latest/meta-data" =
        "http://169.254.169.254/latest/meta-data" from by decide]
      exact hparse
    · rw [hhost]; decide
  · intro u hparse hhost
    apply main "http://10.0.0.5/" u
    · rw [show jsTrim "http://10.0.0.5/" = "http://10.0.0.5/" from by decide]
      exact hparse
    · rw [hhost]; decide

/-- Witness for `c1_blocked_hostnames_rejected`: the metadata-endpoint
example under the concrete oracle. -/
theorem c1_blocked_hostnames_rejected_witness :
    (validateUrl demoParse "http://169.254.169.254/latest/meta-data").isValid
      = false :=
  (c1_blocked_hostnames_rejected demoParse).2.1
    ⟨"http:", "", "", "169.254.169.254",
      "http://169.254.169.254/latest/meta-data"⟩ (by decide) rfl

/-- A hostname whose lowercased text starts with `172.` + a canonical
16–31 component + `.` is blocked. -/
theorem blocked_of_172_prefix (h : String) (v : Nat) (hv1 : 16 ≤ v)
    (hv2 : v ≤ 31)
    (hpre : jsStartsWith (jsToLower h) ("172." ++ natRepr v ++ ".") = true) :
    isBlockedHostname h = true := by
  unfold jsStartsWith at hpre
  obtain ⟨t, ht⟩ := List.isPrefixOf_iff_prefix.mp hpre
  have hm : matches172Range (jsToLower h) = true := by
    apply matches172_gen (jsToLower h) v t hv1 hv2
    rw [← ht]
    have hdata : ("172." ++ natRepr v ++ ".").data =
        ('1' :: '7' :: '2' :: '.' :: ((natRepr v).data ++ ['.'])) := by
      show ("172.".data ++ (natRepr v).data ++ ".".data) = _
      simp
    rw [hdata]
    simp
  unfold isBlockedHostname isPrivateIp
  simp [hm]

/-- Every hostname satisfying the private-prefix condition of claim C9 is
caught by `isBlockedHostname` in the source. -/
theorem specPrefix_implies_blocked (h : String)
    (hs : specHostnameHasPrivatePrefix h = true) :
    isBlockedHostname h = true := by
  unfold specHostnameHasPrivatePrefix specPrivatePrefixes at hs
  simp only [List.any_cons, List.any_nil, Bool.or_eq_true, Bool.or_false] at hs
  rcases hs with h0 | h1 | h2 | h3 | h4 | h5 | h6 | h7 | h8 | h9 | h10 | h11 | h12 | h13 | h14 | h15 | h16 | h17 | h18 | h19 | h20
  · unfold isBlockedHostname isPrivateIp
    simp [h0]
  · unfold isBlockedHostname isPrivateIp
    simp [h1]
  · unfold isBlockedHostname isPrivateIp
    simp [h2]
  · unfold isBlockedHostname isPrivateIp
    simp [h3]
  · unfold isBlockedHostname isPrivateIp
    simp [h4]
  · refine blocked_of_172_prefix h 16 (by decide) (by decide) ?_
    rw [show ("172." ++ natRepr 16 ++ "." : String) = "172.16." from by decide]
    exact h5
  · refine blocked_of_172_prefix h 17 (by decide) (by decide) ?_
    rw [show ("172." ++ natRepr 17 ++ "." : String) = "172.17." from by decide]
    exact h6
  · refine blocked_of_172_prefix h 18 (by decide) (by decide) ?_
    rw [show ("172." ++ natRepr 18 ++ "." : String) = "172.18." from by decide]
    exact h7
  · refine blocked_of_172_prefix h 19 (by decide) (by decide) ?_
    rw [show ("172." ++ natRepr 19 ++ "." : String) = "172.19." from by decide]
    exact h8
  · refine blocked_of_172_prefix h 20 (by decide) (by decide) ?_
    rw [show ("172." ++ natRepr 20 ++ "." : String) = "172.20." from by decide]
    exact h9
  · refine blocked_of_172_prefix h 21 (by decide) (by decide) ?_
    rw [show ("172." ++ natRepr 21 ++ "." : String) = "172.21." from by decide]
    exact h10
  · refine blocked_of_172_prefix h 22 (by decide) (by decide) ?_
    rw [show ("172." ++ natRepr 22 ++ "." : String) = "172.22." from by decide]
    exact h11
  · refine blocked_of_172_prefix h 23 (by decide) (by decide) ?_
    rw [show ("172." ++ natRepr 23 ++ "." : String) = "172.23." from by decide]
    exact h12
  · refine blocked_of_172_prefix h 24 (by decide) (by decide) ?_
    rw [show ("172." ++ natRepr 24 ++ "." : String) = "172.24." from by decide]
    exact h13
  · refine blocked_of_172_prefix h 25 (by decide) (by decide) ?_
    rw [show ("172." ++ natRepr 25 ++ "." : String) = "172.25." from by decide]
    exact h14
  · refine blocked_of_172_prefix h 26 (by decide) (by decide) ?_
    rw [show ("172." ++ natRepr 26 ++ "." : String) = "172.26." from by decide]
    exact h15
  · refine blocked_of_172_prefix h 27 (by decide) (by decide) ?_
    rw [show ("172." ++ natRepr 27 ++ "." : String) = "172.27." from by decide]
    exact h16
  · refine blocked_of_172_prefix h 28 (by decide) (by decide) ?_
    rw [show ("172." ++ natRepr 28 ++ "." : String) = "172.28." from by decide]
    exact h17
  · refine blocked_of_172_prefix h 29 (by decide) (by decide) ?_
    rw [show ("172." ++ natRepr 29 ++ "." : String) = "172.29." from by decide]
    exact h18
  · refine blocked_of_172_prefix h 30 (by decide) (by decide) ?_
    rw [show ("172." ++ natRepr 30 ++ "." : String) = "172.30." from by decide]
    exact h19
  · refine blocked_of_172_prefix h 31 (by decide) (by decide) ?_
    rw [show ("172." ++ natRepr 31 ++ "." : String) = "172.31." from by decide]
    exact h20

/-- C9 (implicit): the private-IP defense is textual prefix matching, so
every URL whose parsed hostname merely begins with `10.`, `192.168.`,
`127.`, `169.254.`, `0.`, or `172.16.`–`172.31.` is rejected even when the
hostname is a public registrable domain — e.g. `http://10.example.com/`. -/
theorem c9_prefix_matching_rejects (parse : String → Option URLRec) :
    (∀ input u, parse (jsTrim input) = some u →
      specHostnameHasPrivatePrefix u.hostname = true →
      (validateUrl parse input).isValid = false) ∧
    (∀ u, parse "http://10.example.com/" = some u →
      u.hostname = "10.example.com" →
      (validateUrl parse "http://10.example.com/").isValid = false) := by
  have main : ∀ input u, parse (jsTrim input) = some u →
      specHostnameHasPrivatePrefix u.hostname = true →
      (validateUrl parse input).isValid = false := by
    intro input u hparse hspec
    exact validateUrl_invalid_of_blocked parse input u hparse
      (specPrefix_implies_blocked u.hostname hspec)
  refine ⟨main, ?_⟩
  intro u hparse hhost
  apply main "http://10.example.com/" u
  · rw [show jsTrim "http://10.example.com/" = "http://10.example.com/"
      from by decide]
    exact hparse
  · rw [hhost]; decide

/-- Witness for `c9_prefix_matching_rejects`: the example URL under the
concrete oracle. -/
theorem c9_prefix_matching_rejects_witness :
    (validateUrl demoParse "http://10.example.com/").isValid = false :=
  (c9_prefix_matching_rejects demoParse).2
    ⟨"http:", "", "", "10.example.com", "http://10.example.com/"⟩
    (by decide) rfl

/-- C10 (implicit): whenever `validateUrl` succeeds, the stored
`normalizedUrl` passes `validateRedirectUrl`.  The hypothesis `hround`
states the WHATWG round-trip guarantee the code relies on: re-parsing a
own serialization of a URL succeeds and preserves the protocol. -/
theorem c10_redirect_check_weaker (parse : String → Option URLRec)
    (hround : ∀ s u, parse s = some u →
      ∃ v, parse u.serialized = some v ∧ v.protocol = u.protocol)
    (input n : String)
    (hvalid : (validateUrl parse input).isValid = true)
    (hnorm : (validateUrl parse input).normalizedUrl = some n) :
    validateRedirectUrl parse n = true := by
  by_cases h1 : jsTrim input = ""
  · unfold validateUrl at hvalid
    simp [h1] at hvalid
  · by_cases h2 : (jsTrim input).length ≤ 2048
    · cases hp : parse (jsTrim input) with
      | none =>
        unfold validateUrl at hvalid
        simp [h1, Nat.not_lt.mpr h2, hp, URL_VALIDATION_MAX_LENGTH] at hvalid
      | some u =>
        rw [validateUrl_parsed parse input u h1 h2 hp] at hvalid hnorm
        cases hcc : (!URL_VALIDATION_ALLOWED_PROTOCOLS.contains u.protocol) with
        | true =>
          rw [if_pos hcc] at hvalid
          simp at hvalid
        | false =>
          cases hb : isBlockedHostname u.hostname with
          | true =>
            rw [if_neg (by rw [hcc]; simp), if_pos hb] at hvalid
            simp at hvalid
          | false =>
            cases hcred : (u.username != "" || u.password != "") with
            | true =>
              rw [if_neg (by rw [hcc]; simp), if_neg (by rw [hb]; simp),
                if_pos hcred] at hvalid
              simp at hvalid
            | false =>
              rw [if_neg (by rw [hcc]; simp), if_neg (by rw [hb]; simp),
                if_neg (by rw [hcred]; simp)] at hnorm
              have hn : n = u.serialized := by
                simpa using hnorm.symm
              obtain ⟨v, hv, hvp⟩ := hround (jsTrim input) u hp
              unfold validateRedirectUrl
              rw [hn, hv]
              show URL_VALIDATION_ALLOWED_PROTOCOLS.contains v.protocol = true
              rw [hvp]
              simpa using hcc
    · unfold validateUrl at hvalid
      have h3 : 2048 < (jsTrim input).length := Nat.not_le.mp h2
      simp [h1, URL_VALIDATION_MAX_LENGTH, h3] at hvalid

/-- Witness for `c10_redirect_check_weaker`: the example URL under the
concrete oracle (which does satisfy the round-trip hypothesis). -/
theorem c10_redirect_check_weaker_witness :
    validateRedirectUrl demoParse "https://example.com/menu" = true := by
  refine c10_redirect_check_weaker demoParse ?_ "https://example.com/menu"
    "https://example.com/menu" ?_ ?_
  · intro s u hsu
    unfold demoParse at hsu
    split_ifs at hsu with hs1 hs2 hs3 hs4 hs5 <;> injection hsu with hu
    · exact ⟨u, by rw [← hu]; decide, rfl⟩
    · exact ⟨u, by rw [← hu]; decide, rfl⟩
    · exact ⟨u, by rw [← hu]; decide, rfl⟩
    · exact ⟨u, by rw [← hu]; decide, rfl⟩
    · exact ⟨u, by rw [← hu]; decide, rfl⟩
  · decide
  · decide

/-! ## C5: finder-pattern and separator geometry -/

/-- Predicate `isFinderPattern` as a proposition. -/
theorem isFinderPattern_iff (r c size : Int) :
    isFinderPattern r c size = true ↔
      ((r ≤ 6 ∧ c ≤ 6) ∨ (r ≤ 6 ∧ size - 7 ≤ c) ∨
       (size - 7 ≤ r ∧ c ≤ 6)) := by
  unfold isFinderPattern
  split_ifs with h1 h2 h3 <;> simp <;> omega

/-- Predicate `isFinderSeparator` as a proposition. -/
theorem isFinderSeparator_iff (r c size : Int) :
    isFinderSeparator r c size = true ↔
      (((r = 7 ∧ c ≤ 7) ∨ (c = 7 ∧ r ≤ 7)) ∨
       ((r = 7 ∧ size - 8 ≤ c) ∨ (c = size - 8 ∧ r ≤ 7)) ∨
       ((r = size - 8 ∧ c ≤ 7) ∨ (c = 7 ∧ size - 8 ≤ r))) := by
  unfold isFinderSeparator
  split_ifs with h1 h2 h3 <;> simp <;> omega

/-- C5: for every size ≥ 21, `isFinderPattern` holds on exactly 49 cells
in each of the three corner regions (147 over the whole grid, never in the
bottom-right corner), `isFinderSeparator` holds exactly on the L-shaped
one-module rings adjacent to those corners, and the two predicates never
overlap. -/
theorem c5_finder_geometry (size : Int) (hs : 21 ≤ size) :
    (((Finset.Icc (0:Int) 6 ×ˢ Finset.Icc (0:Int) 6).filter
        (fun p => isFinderPattern p.1 p.2 size = true)).card = 49) ∧
    (((Finset.Icc (0:Int) 6 ×ˢ Finset.Icc (size-7) (size-1)).filter
        (fun p => isFinderPattern p.1 p.2 size = true)).card = 49) ∧
    (((Finset.Icc (size-7) (size-1) ×ˢ Finset.Icc (0:Int) 6).filter
        (fun p => isFinderPattern p.1 p.2 size = true)).card = 49) ∧
    (((Finset.Icc (0:Int) (size-1) ×ˢ Finset.Icc (0:Int) (size-1)).filter
        (fun p => isFinderPattern p.1 p.2 size = true)).card = 147) ∧
    (∀ r c : Int, size - 7 ≤ r → size - 7 ≤ c →
      isFinderPattern r c size = false) ∧
    (∀ r c : Int, 0 ≤ r → r < size → 0 ≤ c → c < size →
      (isFinderSeparator r c size = true ↔
        ((r = 7 ∧ 0 ≤ c ∧ c ≤ 7) ∨ (c = 7 ∧ 0 ≤ r ∧ r ≤ 7) ∨
         (r = 7 ∧ size - 8 ≤ c ∧ c ≤ size - 1) ∨
         (c = size - 8 ∧ 0 ≤ r ∧ r ≤ 7) ∨
         (r = size - 8 ∧ 0 ≤ c ∧ c ≤ 7) ∨
         (c = 7 ∧ size - 8 ≤ r ∧ r ≤ size - 1)))) ∧
    (∀ r c : Int,
      ¬(isFinderPattern r c size = true ∧ isFinderSeparator r c size = true))
    := by
  have hTL : ((Finset.Icc (0:Int) 6 ×ˢ Finset.Icc (0:Int) 6).filter
      (fun p => isFinderPattern p.1 p.2 size = true)) =
      Finset.Icc (0:Int) 6 ×ˢ Finset.Icc (0:Int) 6 := by
    apply Finset.filter_true_of_mem
    rintro ⟨r, c⟩ hp
    simp only [Finset.mem_product, Finset.mem_Icc] at hp
    rw [isFinderPattern_iff]
    omega
  have hTR : ((Finset.Icc (0:Int) 6 ×ˢ Finset.Icc (size-7) (size-1)).filter
      (fun p => isFinderPattern p.1 p.2 size = true)) =
      Finset.Icc (0:Int) 6 ×ˢ Finset.Icc (size-7) (size-1) := by
    apply Finset.filter_true_of_mem
    rintro ⟨r, c⟩ hp
    simp only [Finset.mem_product, Finset.mem_Icc] at hp
    rw [isFinderPattern_iff]
    omega
  have hBL : ((Finset.Icc (size-7) (size-1) ×ˢ Finset.Icc (0:Int) 6).filter
      (fun p => isFinderPattern p.1 p.2 size = true)) =
      Finset.Icc (size-7) (size-1) ×ˢ Finset.Icc (0:Int) 6 := by
    apply Finset.filter_true_of_mem
    rintro ⟨r, c⟩ hp
    simp only [Finset.mem_product, Finset.mem_Icc] at hp
    rw [isFinderPattern_iff]
    omega
  have hcard7 : (Finset.Icc (size-7) (size-1)).card = 7 := by
    rw [Int.card_Icc]
    have h7 : size - 1 + 1 - (size - 7) = 7 := by ring
    rw [h7]
    rfl
  have hcard70 : (Finset.Icc (0:Int) 6).card = 7 := by decide
  have c49TL : ((Finset.Icc (0:Int) 6 ×ˢ Finset.Icc (0:Int) 6).filter
      (fun p => isFinderPattern p.1 p.2 size = true)).card = 49 := by
    rw [hTL, Finset.card_product, hcard70]
  have c49TR : ((Finset.Icc (0:Int) 6 ×ˢ Finset.Icc (size-7) (size-1)).filter
      (fun p => isFinderPattern p.1 p.2 size = true)).card = 49 := by
    rw [hTR, Finset.card_product, hcard70, hcard7]
  have c49BL : ((Finset.Icc (size-7) (size-1) ×ˢ Finset.Icc (0:Int) 6).filter
      (fun p => isFinderPattern p.1 p.2 size = true)).card = 49 := by
    rw [hBL, Finset.card_product, hcard70, hcard7]
  refine ⟨c49TL, c49TR, c49BL, ?_, ?_, ?_, ?_⟩
  · -- total count 147
    have hsplit : ((Finset.Icc (0:Int) (size-1) ×ˢ Finset.Icc (0:Int) (size-1)).filter
        (fun p => isFinderPattern p.1 p.2 size = true)) =
        (Finset.Icc (0:Int) 6 ×ˢ Finset.Icc (0:Int) 6) ∪
        ((Finset.Icc (0:Int) 6 ×ˢ Finset.Icc (size-7) (size-1)) ∪
         (Finset.Icc (size-7) (size-1) ×ˢ Finset.Icc (0:Int) 6)) := by
      apply Finset.ext
      rintro ⟨r, c⟩
      simp only [Finset.mem_filter, Finset.mem_union, Finset.mem_product,
        Finset.mem_Icc, isFinderPattern_iff]
      omega
    rw [hsplit, Finset.card_union_of_disjoint, Finset.card_union_of_disjoint]
    · rw [Finset.card_product, Finset.card_product, Finset.card_product,
        hcard70, hcard7]
    · rw [Finset.disjoint_left]
      rintro ⟨r, c⟩ h1 h2
      simp only [Finset.mem_product, Finset.mem_Icc] at h1 h2
      omega
    · rw [Finset.disjoint_left]
      rintro ⟨r, c⟩ h1 h2
      simp only [Finset.mem_union, Finset.mem_product, Finset.mem_Icc] at h1 h2
      omega
  · -- never bottom-right
    intro r c h1 h2
    rw [← Bool.not_eq_true, isFinderPattern_iff]
    omega
  · -- separator = the three L-rings
    intro r c h1 h2 h3 h4
    rw [isFinderSeparator_iff]
    constructor <;> intro h <;> omega
  · -- no overlap
    rintro r c ⟨hp, hsep⟩
    rw [isFinderPattern_iff] at hp
    rw [isFinderSeparator_iff] at hsep
    omega

/-- Witness for `c5_finder_geometry` at the smallest real size 21. -/
theorem c5_finder_geometry_witness :
    21 ≤ (21:Int) ∧
    ((Finset.Icc (0:Int) (21-1) ×ˢ Finset.Icc (0:Int) (21-1)).filter
        (fun p => isFinderPattern p.1 p.2 21 = true)).card = 147 :=
  ⟨by decide, (c5_finder_geometry 21 (by decide)).2.2.2.1⟩

/-! ## C6: the module pass never paints finder or separator cells -/

/-- The module loop, fragment-level = coordinate-level. -/
theorem modulePaths_eq_map (matrix : QRMatrix) (style : QRStyleConfig) :
    modulePaths matrix style = (moduleCells matrix).map
      (fun rc => getModulePath style.moduleShape (style.quietZone + rc.2)
        (style.quietZone + rc.1) 1) := by
  unfold modulePaths moduleCells
  rw [List.map_flatMap]
  congr 1
  funext row
  rw [List.map_filterMap]
  congr 1
  funext col
  split_ifs <;> rfl

/-- Unfolding of `buildStyledSVG` to its document template. -/
theorem buildStyledSVG_eq (matrix : QRMatrix) (style : QRStyleConfig)
    (logoDataUri : Option String) (options : SVGOptions) :
    buildStyledSVG matrix style logoDataUri options =
      (if options.includeXmlDeclaration then
        "<?xml version=\"1.0\" encoding=\"UTF-8\"?>\n"
      else "") ++
      "<svg\n  xmlns=\"http://www.w3.org/2000/svg\"\n  xmlns:xlink=\"http://www.w3.org/1999/xlink\"\n  viewBox=\"0 0 " ++
      natRepr (matrix.size + style.quietZone * 2) ++ " " ++
      natRepr (matrix.size + style.quietZone * 2) ++
      "\"\n  shape-rendering=\"crispEdges\"\n>\n  <rect width=\"100%\" height=\"100%\" fill=\"" ++
      style.backgroundColor ++ "\"/>\n  <path fill=\"" ++
      style.foregroundColor ++ "\" d=\"" ++
      String.join (modulePaths matrix style) ++ "\"/>\n  " ++
      String.intercalate "\n  " (finderPatternsList matrix style) ++
      "\n  " ++
      logoElementString style logoDataUri
        (matrix.size + style.quietZone * 2) ++ "\n</svg>" := rfl


/-- C6: the module loop of `buildStyledSVG` emits exactly one fragment per
cell of `moduleCells`, and a coordinate is in `moduleCells` iff it lies in
the grid, is neither a finder-pattern nor a separator cell, and is dark;
the assembled document contains the joined fragments verbatim. -/
theorem c6_no_double_paint (matrix : QRMatrix) (style : QRStyleConfig) :
    modulePaths matrix style = (moduleCells matrix).map
      (fun rc => getModulePath style.moduleShape (style.quietZone + rc.2)
        (style.quietZone + rc.1) 1) ∧
    (∀ r c : Nat, ((r, c) ∈ moduleCells matrix ↔
      (r < matrix.size ∧ c < matrix.size ∧
       isFinderPattern (r : Int) (c : Int) (matrix.size : Int) = false ∧
       isFinderSeparator (r : Int) (c : Int) (matrix.size : Int) = false ∧
       matrix.modules r c = true))) ∧
    (∀ logoDataUri options,
      buildStyledSVG matrix style logoDataUri options =
        (if options.includeXmlDeclaration then
          "<?xml version=\"1.0\" encoding=\"UTF-8\"?>\n"
        else "") ++
        "<svg\n  xmlns=\"http://www.w3.org/2000/svg\"\n  xmlns:xlink=\"http://www.w3.org/1999/xlink\"\n  viewBox=\"0 0 " ++
        natRepr (matrix.size + style.quietZone * 2) ++ " " ++
        natRepr (matrix.size + style.quietZone * 2) ++
        "\"\n  shape-rendering=\"crispEdges\"\n>\n  <rect width=\"100%\" height=\"100%\" fill=\"" ++
        style.backgroundColor ++ "\"/>\n  <path fill=\"" ++
        style.foregroundColor ++ "\" d=\"" ++
        String.join (modulePaths matrix style) ++ "\"/>\n  " ++
        String.intercalate "\n  " (finderPatternsList matrix style) ++
        "\n  " ++
        logoElementString style logoDataUri
          (matrix.size + style.quietZone * 2) ++ "\n</svg>") := by
  refine ⟨modulePaths_eq_map matrix style, ?_, ?_⟩
  · intro r c
    constructor
    · intro h
      simp only [moduleCells, List.mem_flatMap, List.mem_filterMap,
        List.mem_range] at h
      obtain ⟨row, hrow, col, hcol, hf⟩ := h
      split_ifs at hf with hfp hfs hdark
      injection hf with hf2
      have hfr : row = r := congrArg Prod.fst hf2
      have hfc : col = c := congrArg Prod.snd hf2
      subst hfr
      subst hfc
      exact ⟨hrow, hcol, Bool.not_eq_true _ ▸ hfp,
        Bool.not_eq_true _ ▸ hfs, hdark⟩
    · rintro ⟨hr, hc, hfp, hfs, hdark⟩
      simp only [moduleCells, List.mem_flatMap, List.mem_filterMap,
        List.mem_range]
      exact ⟨r, hr, c, hc, by simp [hfp, hfs, hdark]⟩
  · intro logoDataUri options
    exact buildStyledSVG_eq matrix style logoDataUri options

/-! ## C7: the end-to-end size-21 document -/

/-- Appending strings appends their character data. -/
theorem strDataAppend (a b : String) : (a ++ b).data = a.data ++ b.data := rfl

/-- Data of a literal `String.mk`. -/
theorem strDataMk (l : List Char) : (String.mk l).data = l := rfl

/-- A prefix shorter than the base list ignores what is appended. -/
theorem isPrefixOf_append_left (p : List Char) :
    ∀ l r : List Char, p.length ≤ l.length →
      p.isPrefixOf (l ++ r) = p.isPrefixOf l := by
  induction p with
  | nil => intro l r _; simp [List.isPrefixOf]
  | cons x xs ih =>
    intro l r h
    cases l with
    | nil => simp at h
    | cons y ys =>
      simp only [List.cons_append, List.isPrefixOf, List.append_eq]
      rw [ih ys r (by simpa using h)]

/-- A list is a prefix of itself followed by anything. -/
theorem isPrefixOf_self_append (p t : List Char) :
    p.isPrefixOf (p ++ t) = true := by
  induction p with
  | nil => simp [List.isPrefixOf]
  | cons x xs ih => simp [List.isPrefixOf, ih]

/-- One step of `countOccur`. -/
theorem countOccur_cons (pat : List Char) (c : Char) (t : List Char) :
    countOccur pat (c :: t) =
      (if pat.isPrefixOf (c :: t) then 1 else 0) + countOccur pat t := rfl

/-- No occurrence of a pattern whose first character is absent. -/
theorem countOccur_eq_zero (c0 : Char) (q l : List Char) (h : c0 ∉ l) :
    countOccur (c0 :: q) l = 0 := by
  induction l with
  | nil => rfl
  | cons c t ih =>
    have h1 : (c0 == c) = false := by
      simp only [beq_eq_false_iff_ne, ne_eq]
      intro he
      exact h (he ▸ List.mem_cons_self c0 t)
    unfold countOccur
    rw [ih fun hm => h (List.mem_cons_of_mem _ hm)]
    simp [List.isPrefixOf, h1]

/-- Occurrence counting distributes over an append when the leading
pattern character does not occur in the last `|pattern|−1` characters of the
left part (so no occurrence can straddle the boundary). -/
theorem countOccur_append (c0 : Char) (q : List Char) :
    ∀ a r : List Char, c0 ∉ a.drop (a.length - q.length) →
      countOccur (c0 :: q) (a ++ r) =
        countOccur (c0 :: q) a + countOccur (c0 :: q) r := by
  intro a
  induction a with
  | nil => intro r _; simp [countOccur]
  | cons x a' ih =>
    intro r ha
    have ha' : c0 ∉ a'.drop (a'.length - q.length) := by
      intro hm
      apply ha
      by_cases hlen : q.length ≤ a'.length
      · have hk : (x :: a').length - q.length = (a'.length - q.length) + 1 := by
          simp only [List.length_cons]
          omega
        rw [hk, List.drop_succ_cons]
        exact hm
      · have hk : (x :: a').length - q.length = 0 := by
          simp only [List.length_cons]
          omega
        rw [hk, List.drop_zero]
        have h0 : a'.length - q.length = 0 := by omega
        rw [h0, List.drop_zero] at hm
        exact List.mem_cons_of_mem _ hm
    have hps : (c0 :: q).isPrefixOf (x :: (a' ++ r)) =
        (c0 :: q).isPrefixOf (x :: a') := by
      by_cases hx : c0 = x
      · have hlong : (c0 :: q).length ≤ (x :: a').length := by
          simp only [List.length_cons]
          by_contra hle
          have hk : (x :: a').length - q.length = 0 := by
            simp only [List.length_cons]
            omega
          rw [hk, List.drop_zero] at ha
          exact ha (hx ▸ List.mem_cons_self x a')
        rw [← List.cons_append]
        exact isPrefixOf_append_left _ _ _ hlong
      · have hb : (c0 == x) = false := by
          simp only [beq_eq_false_iff_ne, ne_eq]
          exact hx
        simp [List.isPrefixOf, hb]
    rw [List.cons_append, countOccur_cons, countOccur_cons, ih r ha', hps,
      ← Nat.add_assoc]

/-- Every character `natCharsAux` emits is a decimal digit. -/
theorem mem_natCharsAux (fuel : Nat) :
    ∀ n : Nat, ∀ c ∈ natCharsAux fuel n,
      c ∈ ['0', '1', '2', '3', '4', '5', '6', '7', '8', '9'] := by
  induction fuel with
  | zero => intro n c h; simp [natCharsAux] at h
  | succ fuel ih =>
    intro n c h
    unfold natCharsAux at h
    split_ifs at h with h10
    · simp only [List.mem_singleton] at h
      subst h
      interval_cases n <;> decide
    · rcases List.mem_append.mp h with h1 | h2
      · exact ih _ c h1
      · simp only [List.mem_singleton] at h2
        subst h2
        have hlt : n % 10 < 10 := Nat.mod_lt _ (by decide)
        set m := n % 10 with hm
        clear_value m
        interval_cases m <;> decide

/-- Square module fragments contain no `<` (they are pure path data). -/
theorem no_lt_square_fragment (x y size : Nat) :
    '<' ∉ (getModulePath .square x y size).data := by
  intro h
  simp only [getModulePath, strDataAppend, natRepr, strDataMk,
    List.mem_append] at h
  rcases h with ((((((((((h | h) | h) | h) | h) | h) | h) | h) | h) | h) | h) <;>
    first
      | exact absurd h (by decide)
      | exact absurd (mem_natCharsAux _ _ _ h) (by decide)

/-- The joined module path data of a `c7Style` render contains no `<`. -/
theorem no_lt_moduleJoin (matrix : QRMatrix) :
    '<' ∉ (String.join (modulePaths matrix c7Style)).data := by
  intro h
  rw [String.data_join] at h
  obtain ⟨ld, hld, hc⟩ := List.mem_join.mp h
  obtain ⟨s, hs, rfl⟩ := List.mem_map.mp hld
  rw [modulePaths_eq_map] at hs
  obtain ⟨rc, _, rfl⟩ := List.mem_map.mp hs
  exact no_lt_square_fragment _ _ _ hc

/-- The finder-pattern list reads only the matrix size. -/
theorem finderPatternsList_ignores_modules (f : Nat → Nat → Bool) :
    finderPatternsList ⟨21, f⟩ c7Style =
      finderPatternsList ⟨21, fun _ _ => false⟩ c7Style := rfl

set_option maxRecDepth 40000 in
/-- C7: for every 21-module matrix rendered with quiet zone 4, foreground
`#000000`, background `#FFFFFF`, square modules and square eyes, the
document splits as `c7Head`/module-path-data/`c7Tail`; it starts with
`c7Head`, whose text fixes the viewBox to `0 0 29 29`; the three
finder-pattern triples are exactly nine fill rectangles anchored at
(4,4), (18,4) and (4,18); the document contains exactly one `<path`
element and exactly nine `<rect x=` fragments (the eye rectangles — the
only other rect is the full-viewbox background). -/
theorem c7_styled_svg_size21 (mod : Nat → Nat → Bool) :
    (buildStyledSVG ⟨21, mod⟩ c7Style none ⟨true⟩).data =
      c7Head.data ++
        ((String.join (modulePaths ⟨21, mod⟩ c7Style)).data ++ c7Tail.data) ∧
    jsStartsWith (buildStyledSVG ⟨21, mod⟩ c7Style none ⟨true⟩) c7Head
      = true ∧
    finderPatternsList ⟨21, mod⟩ c7Style =
      ["<rect x=\"4\" y=\"4\" width=\"7\" height=\"7\" fill=\"#000000\"/>",
       "<rect x=\"5\" y=\"5\" width=\"5\" height=\"5\" fill=\"#FFFFFF\"/>",
       "<rect x=\"6\" y=\"6\" width=\"3\" height=\"3\" fill=\"#000000\"/>",
       "<rect x=\"18\" y=\"4\" width=\"7\" height=\"7\" fill=\"#000000\"/>",
       "<rect x=\"19\" y=\"5\" width=\"5\" height=\"5\" fill=\"#FFFFFF\"/>",
       "<rect x=\"20\" y=\"6\" width=\"3\" height=\"3\" fill=\"#000000\"/>",
       "<rect x=\"4\" y=\"18\" width=\"7\" height=\"7\" fill=\"#000000\"/>",
       "<rect x=\"5\" y=\"19\" width=\"5\" height=\"5\" fill=\"#FFFFFF\"/>",
       "<rect x=\"6\" y=\"20\" width=\"3\" height=\"3\" fill=\"#000000\"/>"] ∧
    countOccur "<path".data (buildStyledSVG ⟨21, mod⟩ c7Style none ⟨true⟩).data
      = 1 ∧
    countOccur "<rect x=\"".data
      (buildStyledSVG ⟨21, mod⟩ c7Style none ⟨true⟩).data = 9 := by
  have hdecomp : (buildStyledSVG ⟨21, mod⟩ c7Style none ⟨true⟩).data =
      c7Head.data ++
        ((String.join (modulePaths ⟨21, mod⟩ c7Style)).data ++ c7Tail.data) := by
    rw [buildStyledSVG_eq]
    simp only [strDataAppend, List.append_assoc]
    rw [show (natRepr (21 + c7Style.quietZone * 2)).data = "29".data from by
      decide]
    rw [show c7Style.backgroundColor.data = "#FFFFFF".data from by decide]
    rw [show c7Style.foregroundColor.data = "#000000".data from by decide]
    rw [finderPatternsList_ignores_modules mod]
    rw [show ("\n  ".intercalate
        (finderPatternsList ⟨21, fun _ _ => false⟩ c7Style)).data =
      ("<rect x=\"4\" y=\"4\" width=\"7\" height=\"7\" fill=\"#000000\"/>\n  <rect x=\"5\" y=\"5\" width=\"5\" height=\"5\" fill=\"#FFFFFF\"/>\n  <rect x=\"6\" y=\"6\" width=\"3\" height=\"3\" fill=\"#000000\"/>\n  <rect x=\"18\" y=\"4\" width=\"7\" height=\"7\" fill=\"#000000\"/>\n  <rect x=\"19\" y=\"5\" width=\"5\" height=\"5\" fill=\"#FFFFFF\"/>\n  <rect x=\"20\" y=\"6\" width=\"3\" height=\"3\" fill=\"#000000\"/>\n  <rect x=\"4\" y=\"18\" width=\"7\" height=\"7\" fill=\"#000000\"/>\n  <rect x=\"5\" y=\"19\" width=\"5\" height=\"5\" fill=\"#FFFFFF\"/>\n  <rect x=\"6\" y=\"20\" width=\"3\" height=\"3\" fill=\"#000000\"/>").data from by decide]
    rw [show (logoElementString c7Style none (21 + c7Style.quietZone * 2)) = ""
      from rfl]
    simp only [if_true, strDataMk, c7Head, c7Tail, List.cons_append,
      List.nil_append, List.append_assoc]
  have hjoin : ∀ c ∈ (String.join (modulePaths ⟨21, mod⟩ c7Style)).data,
      c ≠ '<' := fun c hc he => no_lt_moduleJoin ⟨21, mod⟩ (he ▸ hc)
  refine ⟨hdecomp, ?_, ?_, ?_, ?_⟩
  · unfold jsStartsWith
    rw [hdecomp]
    exact isPrefixOf_self_append _ _
  · rw [finderPatternsList_ignores_modules mod]
    decide
  · rw [show ("<path".data) = '<' :: "path".data from rfl, hdecomp,
      countOccur_append '<' "path".data c7Head.data _ (by decide),
      countOccur_append '<' "path".data
        (String.join (modulePaths ⟨21, mod⟩ c7Style)).data _
        (fun hm => absurd rfl
          (hjoin '<' (List.drop_subset _ _ hm))),
      countOccur_eq_zero '<' "path".data _
        (fun hm => absurd rfl (hjoin '<' hm))]
    rw [show countOccur ('<' :: "path".data) c7Head.data = 1 from by decide,
      show countOccur ('<' :: "path".data) c7Tail.data = 0 from by decide]
  · rw [show ("<rect x=\"".data) = '<' :: "rect x=\"".data from rfl, hdecomp,
      countOccur_append '<' "rect x=\"".data c7Head.data _ (by decide),
      countOccur_append '<' "rect x=\"".data
        (String.join (modulePaths ⟨21, mod⟩ c7Style)).data _
        (fun hm => absurd rfl
          (hjoin '<' (List.drop_subset _ _ hm))),
      countOccur_eq_zero '<' "rect x=\"".data _
        (fun hm => absurd rfl (hjoin '<' hm))]
    rw [show countOccur ('<' :: "rect x=\"".data) c7Head.data = 0 from by
      decide,
      show countOccur ('<' :: "rect x=\"".data) c7Tail.data = 9 from by
      decide]

/-! ## C4: `optimizeSVG` idempotence -/

/-- C4 counterexample: overlapping comment markers splice into a fresh
comment that only a second pass removes, so `optimizeSVG` is not
idempotent: one pass over `<!-<!-- a -->- b -->` leaves `<!-- b -->`, and
a second pass deletes it. -/
theorem c4_counterexample :
    optimizeSVG "<!-<!-- a -->- b -->" = "<!-- b -->" ∧
    optimizeSVG (optimizeSVG "<!-<!-- a -->- b -->") = "" ∧
    optimizeSVG (optimizeSVG "<!-<!-- a -->- b -->") ≠
      optimizeSVG "<!-<!-- a -->- b -->" :=
  ⟨by decide, by decide, by decide⟩

/-- Destruct `wsNormB` over a cons. -/
theorem wsNormB_tail (a : Char) (t : List Char)
    (h : wsNormB (a :: t) = true) : wsNormB t = true := by
  cases t with
  | nil => rfl
  | cons b t' =>
    simp only [wsNormB, Bool.and_eq_true] at h
    exact h.2

/-- A whitespace character in a normalized list is a space. -/
theorem wsNormB_space (a : Char) (t : List Char)
    (h : wsNormB (a :: t) = true) (hw : isJsWs a = true) : a = ' ' := by
  cases t with
  | nil =>
    simp only [wsNormB, Bool.or_eq_true, Bool.not_eq_true', beq_iff_eq] at h
    rcases h with h | h
    · rw [hw] at h; cases h
    · exact h
  | cons b t' =>
    simp only [wsNormB, Bool.and_eq_true, Bool.or_eq_true,
      Bool.not_eq_true', beq_iff_eq] at h
    rcases h.1.1 with h1 | h1
    · rw [hw] at h1; cases h1
    · exact h1

/-- Adjacent characters in a normalized list are not both whitespace. -/
theorem wsNormB_pair (a b : Char) (t : List Char)
    (h : wsNormB (a :: b :: t) = true) :
    isJsWs a = false ∨ isJsWs b = false := by
  simp only [wsNormB, Bool.and_eq_true] at h
  have h2 := h.1.2
  rw [Bool.not_eq_true', Bool.and_eq_false_iff] at h2
  exact h2

/-- Build `wsNormB` over a cons. -/
theorem wsNormB_cons (x : Char) (l : List Char)
    (hx : isJsWs x = false ∨ x = ' ')
    (hadj : ∀ b t', l = b :: t' → isJsWs x = false ∨ isJsWs b = false)
    (hl : wsNormB l = true) : wsNormB (x :: l) = true := by
  cases l with
  | nil =>
    simp only [wsNormB, Bool.or_eq_true, Bool.not_eq_true', beq_iff_eq]
    exact hx
  | cons b t' =>
    simp only [wsNormB, Bool.and_eq_true, Bool.or_eq_true,
      Bool.not_eq_true', beq_iff_eq, Bool.not_eq_true,
      Bool.and_eq_false_iff]
    exact ⟨⟨hx, hadj b t' rfl⟩, by simpa [wsNormB] using hl⟩

/-- Compute `hasPat` over a cons. -/
theorem hasPat_cons (a : Char) (t : List Char) :
    hasPat (a :: t) = ((a == '>') && gapHead t || hasPat t) := by
  by_cases ha : a = '>'
  · subst ha
    rcases t with _ | ⟨b, _ | ⟨c, t'⟩⟩
    · simp [hasPat, gapHead]
    · by_cases hb : b = ' ' <;> simp [hasPat, gapHead, hb]
    · by_cases hb : b = ' '
      · subst hb
        by_cases hc : c = '<'
        · subst hc; simp [hasPat, gapHead]
        · simp [hasPat, gapHead, hc]
      · simp [hasPat, gapHead, hb]
  · have ha2 : (a == '>') = false := by simpa using ha
    rcases t with _ | ⟨b, _ | ⟨c, t'⟩⟩
    · simp [hasPat, ha2]
    · simp [hasPat, ha2, ha]
    · by_cases hb : b = ' '
      · subst hb
        by_cases hc : c = '<'
        · subst hc; simp [hasPat, ha2, ha]
        · simp [hasPat, ha2, ha]
      · simp [hasPat, ha2, ha]

/-- After a collapsed run, the next emitted character is not whitespace. -/
theorem cw_true_head (t : List Char) :
    ∀ c, (collapseWsAux t true).head? = some c → isJsWs c = false := by
  induction t with
  | nil => intro c h; simp [collapseWsAux] at h
  | cons d rest ih =>
    intro c h
    by_cases hd : isJsWs d = true
    · rw [show collapseWsAux (d :: rest) true = collapseWsAux rest true
        from by simp [collapseWsAux, hd]] at h
      exact ih c h
    · rw [show collapseWsAux (d :: rest) true = d :: collapseWsAux rest false
        from by simp [collapseWsAux, hd]] at h
      simp only [List.head?_cons, Option.some.injEq] at h
      subst h
      simpa using hd

/-- Output of `collapseWs` is whitespace-normalized. -/
theorem cw_norm (t : List Char) : ∀ b, wsNormB (collapseWsAux t b) = true := by
  induction t with
  | nil => intro b; rfl
  | cons d rest ih =>
    intro b
    by_cases hd : isJsWs d = true
    · cases b with
      | true =>
        rw [show collapseWsAux (d :: rest) true = collapseWsAux rest true
          from by simp [collapseWsAux, hd]]
        exact ih true
      | false =>
        rw [show collapseWsAux (d :: rest) false =
            ' ' :: collapseWsAux rest true from by simp [collapseWsAux, hd]]
        refine wsNormB_cons ' ' _ (Or.inr rfl) ?_ (ih true)
        intro b t' he
        exact Or.inr (cw_true_head rest b (by rw [he]; rfl))
    · rw [show collapseWsAux (d :: rest) b = d :: collapseWsAux rest false
        from by cases b <;> simp [collapseWsAux, hd]]
      refine wsNormB_cons d _ (Or.inl (by simpa using hd)) ?_ (ih false)
      intro b' t' _
      exact Or.inl (by simpa using hd)

/-- With a non-whitespace head the two scanner states agree. -/
theorem cw_state_agree (d : Char) (rest : List Char)
    (hd : isJsWs d = false) :
    collapseWsAux (d :: rest) true = collapseWsAux (d :: rest) false := by
  simp [collapseWsAux, hd]

/-- Identity of `collapseWs` on normalized input. -/
theorem cw_id (l : List Char) :
    wsNormB l = true → collapseWsAux l false = l := by
  induction l with
  | nil => intro _; rfl
  | cons c rest ih =>
    intro h
    by_cases hc : isJsWs c = true
    · have hsp : c = ' ' := wsNormB_space _ _ h hc
      subst hsp
      rw [show collapseWsAux (' ' :: rest) false =
          ' ' :: collapseWsAux rest true from by simp [collapseWsAux, hc]]
      cases rest with
      | nil => rfl
      | cons d r2 =>
        have hd : isJsWs d = false := by
          rcases wsNormB_pair ' ' d r2 h with h1 | h1
          · rw [hc] at h1; cases h1
          · exact h1
        rw [cw_state_agree d r2 hd, ih (wsNormB_tail _ _ h)]
    · rw [show collapseWsAux (c :: rest) false =
          c :: collapseWsAux rest false from by simp [collapseWsAux, hc]]
      rw [ih (wsNormB_tail _ _ h)]

/-- Window-freedom passes to the tail. -/
theorem hasPat_tail (a : Char) (t : List Char)
    (h : hasPat (a :: t) = false) : hasPat t = false := by
  rw [hasPat_cons] at h
  exact (Bool.or_eq_false_iff.mp h).2

/-- The `stripBetween` scanner is the identity on whitespace-normalized
input with no `> <` window (both scanner states). -/
theorem sb_id : ∀ n : Nat, ∀ l : List Char, l.length ≤ n →
    (wsNormB l = true → hasPat l = false → stripBetweenAux l none = l) ∧
    (wsNormB ('>' :: l) = true → hasPat ('>' :: l) = false →
      stripBetweenAux l (some []) = l) := by
  intro n
  induction n with
  | zero =>
    intro l hl
    have h0 : l = [] := List.eq_nil_of_length_eq_zero (Nat.le_zero.mp hl)
    subst h0
    exact ⟨fun _ _ => rfl, fun _ _ => rfl⟩
  | succ n ih =>
    intro l hl
    constructor
    · intro hnorm hnp
      cases l with
      | nil => rfl
      | cons c rest =>
        have hrest : rest.length ≤ n := by
          simp only [List.length_cons] at hl
          omega
        by_cases hc : c = '>'
        · subst hc
          rw [show stripBetweenAux ('>' :: rest) none =
              '>' :: stripBetweenAux rest (some []) from by
            simp [stripBetweenAux]]
          rw [(ih rest hrest).2 hnorm hnp]
        · rw [show stripBetweenAux (c :: rest) none =
              c :: stripBetweenAux rest none from by simp [stripBetweenAux, hc]]
          rw [(ih rest hrest).1 (wsNormB_tail _ _ hnorm) (hasPat_tail _ _ hnp)]
    · intro hnorm hnp
      cases l with
      | nil => rfl
      | cons c rest =>
        have hrest : rest.length ≤ n := by
          simp only [List.length_cons] at hl
          omega
        by_cases hws : isJsWs c = true
        · have hsp : c = ' ' := wsNormB_space c rest (wsNormB_tail _ _ hnorm) hws
          subst hsp
          rw [show stripBetweenAux (' ' :: rest) (some []) =
              stripBetweenAux rest (some [' ']) from by
            simp [stripBetweenAux, hws]]
          cases rest with
          | nil => rfl
          | cons d r2 =>
            have hr2 : r2.length ≤ n := by
              simp only [List.length_cons] at hl
              omega
            have hd_ws : isJsWs d = false := by
              rcases wsNormB_pair ' ' d r2
                  (wsNormB_tail _ _ hnorm) with h1 | h1
              · rw [hws] at h1; cases h1
              · exact h1
            by_cases hd1 : d = '<'
            · exfalso
              subst hd1
              simp [hasPat] at hnp
            · by_cases hd2 : d = '>'
              · subst hd2
                rw [show stripBetweenAux ('>' :: r2) (some [' ']) =
                    ' ' :: '>' :: stripBetweenAux r2 (some []) from by
                  simp [stripBetweenAux,
                    show isJsWs '>' = false from by decide]]
                have hnorm2 : wsNormB ('>' :: r2) = true :=
                  wsNormB_tail _ _ (wsNormB_tail _ _ (wsNormB_tail _ _ hnorm))
                have hnp2 : hasPat ('>' :: r2) = false :=
                  hasPat_tail _ _ (hasPat_tail _ _ hnp)
                rw [(ih r2 hr2).2 hnorm2 hnp2]
              · rw [show stripBetweenAux (d :: r2) (some [' ']) =
                    ' ' :: d :: stripBetweenAux r2 none from by
                  simp [stripBetweenAux, hd_ws, hd1, hd2]]
                have hnorm2 : wsNormB r2 = true :=
                  wsNormB_tail _ _ (wsNormB_tail _ _ (wsNormB_tail _ _ hnorm))
                have hnp2 : hasPat r2 = false :=
                  hasPat_tail _ _ (hasPat_tail _ _ (hasPat_tail _ _ hnp))
                rw [(ih r2 hr2).1 hnorm2 hnp2]
        · by_cases hc1 : c = '<'
          · subst hc1
            rw [show stripBetweenAux ('<' :: rest) (some []) =
                '<' :: stripBetweenAux rest none from by
              simp [stripBetweenAux, show isJsWs '<' = false from by decide]]
            rw [(ih rest hrest).1
              (wsNormB_tail _ _ (wsNormB_tail _ _ hnorm))
              (hasPat_tail _ _ (hasPat_tail _ _ hnp))]
          · by_cases hc2 : c = '>'
            · subst hc2
              rw [show stripBetweenAux ('>' :: rest) (some []) =
                  '>' :: stripBetweenAux rest (some []) from by
                simp [stripBetweenAux,
                  show isJsWs '>' = false from by decide]]
              rw [(ih rest hrest).2 (wsNormB_tail _ _ hnorm)
                (hasPat_tail _ _ hnp)]
            · rw [show stripBetweenAux (c :: rest) (some []) =
                  c :: stripBetweenAux rest none from by
                simp [stripBetweenAux, hws, hc1, hc2]]
              rw [(ih rest hrest).1
                (wsNormB_tail _ _ (wsNormB_tail _ _ hnorm))
                (hasPat_tail _ _ (hasPat_tail _ _ hnp))]

/-- In the outside state the scanner always keeps the current head. -/
theorem sb_head (c : Char) (rest : List Char) :
    ∃ t, stripBetweenAux (c :: rest) none = c :: t := by
  by_cases hc : c = '>'
  · subst hc
    exact ⟨stripBetweenAux rest (some []), by simp [stripBetweenAux]⟩
  · exact ⟨stripBetweenAux rest none, by simp [stripBetweenAux, hc]⟩

/-- A `> <` window cannot open at a non-space character. -/
theorem gapHead_ne_space (c : Char) (t : List Char) (hc : c ≠ ' ') :
    gapHead (c :: t) = false := by
  rcases t with _ | ⟨d, t'⟩
  · simp [gapHead, hc]
  · by_cases hd : d = '<' <;> simp [gapHead, hc, hd]

/-- A `> <` window cannot close at a non-`<` character. -/
theorem gapHead_ne_lt (d : Char) (t : List Char) (hd : d ≠ '<') :
    gapHead (' ' :: d :: t) = false := by
  simp [gapHead, hd]

/-- Output of `stripBetween` on normalized input stays normalized and has no
`> <` window (both scanner states). -/
theorem sb_out : ∀ n : Nat, ∀ l : List Char, l.length ≤ n →
    (wsNormB l = true →
      wsNormB (stripBetweenAux l none) = true ∧
      hasPat (stripBetweenAux l none) = false) ∧
    (wsNormB ('>' :: l) = true →
      wsNormB ('>' :: stripBetweenAux l (some [])) = true ∧
      hasPat ('>' :: stripBetweenAux l (some [])) = false) := by
  intro n
  induction n with
  | zero =>
    intro l hl
    have h0 : l = [] := List.eq_nil_of_length_eq_zero (Nat.le_zero.mp hl)
    subst h0
    exact ⟨fun _ => ⟨rfl, rfl⟩, fun _ => ⟨rfl, rfl⟩⟩
  | succ n ih =>
    intro l hl
    constructor
    · intro hnorm
      cases l with
      | nil => exact ⟨rfl, rfl⟩
      | cons c rest =>
        have hrest : rest.length ≤ n := by
          simp only [List.length_cons] at hl
          omega
        by_cases hc : c = '>'
        · subst hc
          rw [show stripBetweenAux ('>' :: rest) none =
              '>' :: stripBetweenAux rest (some []) from by
            simp [stripBetweenAux]]
          exact (ih rest hrest).2 hnorm
        · rw [show stripBetweenAux (c :: rest) none =
              c :: stripBetweenAux rest none from by simp [stripBetweenAux, hc]]
          obtain ⟨hn2, hp2⟩ := (ih rest hrest).1 (wsNormB_tail _ _ hnorm)
          constructor
          · refine wsNormB_cons c _ ?_ ?_ hn2
            · by_cases hcw : isJsWs c = true
              · exact Or.inr (wsNormB_space c rest hnorm hcw)
              · exact Or.inl (by simpa using hcw)
            · intro b t' he
              cases rest with
              | nil => simp [stripBetweenAux] at he
              | cons d r2 =>
                obtain ⟨t0, ht0⟩ := sb_head d r2
                rw [ht0] at he
                have hbd : b = d := by
                  have := congrArg (List.head?) he
                  simpa using this.symm
                subst hbd
                rcases wsNormB_pair c b r2 hnorm with h1 | h1
                · exact Or.inl h1
                · exact Or.inr h1
          · rw [hasPat_cons]
            have hcb : (c == '>') = false := by simpa using hc
            simp [hcb, hp2]
    · intro hnorm
      cases l with
      | nil => exact ⟨by decide, by decide⟩
      | cons c rest =>
        have hrest : rest.length ≤ n := by
          simp only [List.length_cons] at hl
          omega
        by_cases hws : isJsWs c = true
        · have hsp : c = ' ' :=
            wsNormB_space c rest (wsNormB_tail _ _ hnorm) hws
          subst hsp
          rw [show stripBetweenAux (' ' :: rest) (some []) =
              stripBetweenAux rest (some [' ']) from by
            simp [stripBetweenAux, hws]]
          cases rest with
          | nil => exact ⟨by decide, by decide⟩
          | cons d r2 =>
            have hr2 : r2.length ≤ n := by
              simp only [List.length_cons] at hl
              omega
            have hd_ws : isJsWs d = false := by
              rcases wsNormB_pair ' ' d r2
                  (wsNormB_tail _ _ hnorm) with h1 | h1
              · rw [hws] at h1; cases h1
              · exact h1
            by_cases hd1 : d = '<'
            · subst hd1
              rw [show stripBetweenAux ('<' :: r2) (some [' ']) =
                  '<' :: stripBetweenAux r2 none from by
                simp [stripBetweenAux, show isJsWs '<' = false from by decide]]
              obtain ⟨hn2, hp2⟩ := (ih r2 hr2).1
                (wsNormB_tail _ _ (wsNormB_tail _ _ (wsNormB_tail _ _ hnorm)))
              constructor
              · refine wsNormB_cons '>' _ (Or.inl (by decide))
                  (fun b t' _ => Or.inl (by decide)) ?_
                refine wsNormB_cons '<' _ (Or.inl (by decide))
                  (fun b t' _ => Or.inl (by decide)) hn2
              · rw [hasPat_cons, hasPat_cons]
                rw [gapHead_ne_space '<' _ (by decide)]
                simp [hp2]
            · by_cases hd2 : d = '>'
              · subst hd2
                rw [show stripBetweenAux ('>' :: r2) (some [' ']) =
                    ' ' :: '>' :: stripBetweenAux r2 (some []) from by
                  simp [stripBetweenAux,
                    show isJsWs '>' = false from by decide]]
                obtain ⟨hn2, hp2⟩ := (ih r2 hr2).2
                  (wsNormB_tail _ _ (wsNormB_tail _ _ hnorm))
                constructor
                · refine wsNormB_cons '>' _ (Or.inl (by decide))
                    (fun b t' _ => Or.inl (by decide)) ?_
                  refine wsNormB_cons ' ' _ (Or.inr rfl) ?_ hn2
                  intro b t' he
                  have hb : b = '>' := by
                    have := congrArg (List.head?) he
                    simpa using this.symm
                  subst hb
                  exact Or.inr (by decide)
                · rw [hasPat_cons, hasPat_cons]
                  rw [gapHead_ne_lt '>' _ (by decide)]
                  have h2 : ((' ' == '>') : Bool) = false := by decide
                  simp [h2, hp2]
              · rw [show stripBetweenAux (d :: r2) (some [' ']) =
                    ' ' :: d :: stripBetweenAux r2 none from by
                  simp [stripBetweenAux, hd_ws, hd1, hd2]]
                obtain ⟨hn2, hp2⟩ := (ih r2 hr2).1
                  (wsNormB_tail _ _ (wsNormB_tail _ _ (wsNormB_tail _ _ hnorm)))
                constructor
                · refine wsNormB_cons '>' _ (Or.inl (by decide))
                    (fun b t' _ => Or.inl (by decide)) ?_
                  refine wsNormB_cons ' ' _ (Or.inr rfl) ?_ ?_
                  · intro b t' he
                    have hb : b = d := by
                      have := congrArg (List.head?) he
                      simpa using this.symm
                    subst hb
                    exact Or.inr hd_ws
                  · refine wsNormB_cons d _ (Or.inl hd_ws) ?_ hn2
                    intro b t' he
                    exact Or.inl hd_ws
                · rw [hasPat_cons, hasPat_cons, hasPat_cons]
                  rw [gapHead_ne_lt d _ hd1]
                  have h2 : ((' ' == '>') : Bool) = false := by decide
                  have h3 : (d == '>') = false := by simpa using hd2
                  simp [h2, h3, hp2]
        · by_cases hc1 : c = '<'
          · subst hc1
            rw [show stripBetweenAux ('<' :: rest) (some []) =
                '<' :: stripBetweenAux rest none from by
              simp [stripBetweenAux, show isJsWs '<' = false from by decide]]
            obtain ⟨hn2, hp2⟩ := (ih rest hrest).1
              (wsNormB_tail _ _ (wsNormB_tail _ _ hnorm))
            constructor
            · refine wsNormB_cons '>' _ (Or.inl (by decide))
                (fun b t' _ => Or.inl (by decide)) ?_
              refine wsNormB_cons '<' _ (Or.inl (by decide))
                (fun b t' _ => Or.inl (by decide)) hn2
            · rw [hasPat_cons, hasPat_cons]
              rw [gapHead_ne_space '<' _ (by decide)]
              simp [hp2]
          · by_cases hc2 : c = '>'
            · subst hc2
              rw [show stripBetweenAux ('>' :: rest) (some []) =
                  '>' :: stripBetweenAux rest (some []) from by
                simp [stripBetweenAux,
                  show isJsWs '>' = false from by decide]]
              obtain ⟨hn2, hp2⟩ := (ih rest hrest).2 (wsNormB_tail _ _ hnorm)
              constructor
              · refine wsNormB_cons '>' _ (Or.inl (by decide))
                  (fun b t' _ => Or.inl (by decide)) hn2
              · rw [hasPat_cons]
                rw [gapHead_ne_space '>' _ (by decide)]
                simp [hp2]
            · rw [show stripBetweenAux (c :: rest) (some []) =
                  c :: stripBetweenAux rest none from by
                simp [stripBetweenAux, hws, hc1, hc2]]
              obtain ⟨hn2, hp2⟩ := (ih rest hrest).1
                (wsNormB_tail _ _ (wsNormB_tail _ _ hnorm))
              have hcz : c ≠ ' ' := by
                intro he
                rw [he] at hws
                exact hws (by decide)
              constructor
              · refine wsNormB_cons '>' _ (Or.inl (by decide))
                  (fun b t' _ => Or.inl (by decide)) ?_
                refine wsNormB_cons c _ (Or.inl (by simpa using hws)) ?_ hn2
                intro b t' _
                exact Or.inl (by simpa using hws)
              · rw [hasPat_cons, hasPat_cons]
                rw [gapHead_ne_space c _ hcz]
                have hcb : (c == '>') = false := by simpa using hc2
                simp [hcb, hp2]

/-- Normalization survives truncation on the right. -/
theorem wsNormB_append_left (l1 l2 : List Char)
    (h : wsNormB (l1 ++ l2) = true) : wsNormB l1 = true := by
  induction l1 with
  | nil => rfl
  | cons a t ih =>
    rw [List.cons_append] at h
    refine wsNormB_cons a t ?_ ?_ (ih (wsNormB_tail _ _ h))
    · by_cases hw : isJsWs a = true
      · exact Or.inr (wsNormB_space _ _ h hw)
      · exact Or.inl (by simpa using hw)
    · intro b t' he
      subst he
      rw [List.cons_append] at h
      exact wsNormB_pair a b _ h

/-- A `> <` window in a prefix survives appending. -/
theorem gapHead_append (t l2 : List Char) (h : gapHead t = true) :
    gapHead (t ++ l2) = true := by
  rcases t with _ | ⟨a, _ | ⟨b, x⟩⟩
  · simp [gapHead] at h
  · by_cases ha : a = ' ' <;> simp [gapHead, ha] at h
  · by_cases ha : a = ' '
    · subst ha
      by_cases hb : b = '<'
      · subst hb; simp [gapHead]
      · simp [gapHead, hb] at h
    · simp [gapHead, ha] at h

/-- Absence of a `> <` window survives truncation on the right. -/
theorem hasPat_append_left (l1 l2 : List Char)
    (h : hasPat (l1 ++ l2) = false) : hasPat l1 = false := by
  induction l1 with
  | nil => rfl
  | cons a t ih =>
    rw [List.cons_append, hasPat_cons] at h
    obtain ⟨h1, h2⟩ := Bool.or_eq_false_iff.mp h
    rw [hasPat_cons]
    refine Bool.or_eq_false_iff.mpr ⟨?_, ih h2⟩
    rcases Bool.and_eq_false_iff.mp h1 with h3 | h3
    · simp [h3]
    · have : gapHead t = false := by
        by_contra hgt
        rw [gapHead_append t l2 (by simpa using hgt)] at h3
        cases h3
      simp [this]

/-- Normalization survives `dropWhile`. -/
theorem wsNormB_dropWhile (p : Char → Bool) (l : List Char)
    (h : wsNormB l = true) : wsNormB (l.dropWhile p) = true := by
  induction l with
  | nil => simpa using h
  | cons a t ih =>
    by_cases hp : p a = true
    · rw [List.dropWhile_cons_of_pos hp]
      exact ih (wsNormB_tail _ _ h)
    · rw [List.dropWhile_cons_of_neg (by simpa using hp)]
      exact h

/-- No-window survives `dropWhile`. -/
theorem hasPat_dropWhile (p : Char → Bool) (l : List Char)
    (h : hasPat l = false) : hasPat (l.dropWhile p) = false := by
  induction l with
  | nil => simpa using h
  | cons a t ih =>
    by_cases hp : p a = true
    · rw [List.dropWhile_cons_of_pos hp]
      exact ih (hasPat_tail _ _ h)
    · rw [List.dropWhile_cons_of_neg (by simpa using hp)]
      exact h

/-- Trimming only removes characters at the two ends, so both
normalization and window-freedom survive it. -/
theorem jsTrimList_pre (l : List Char) :
    ∃ t, jsTrimList l ++ t = l.dropWhile isJsWs := by
  unfold jsTrimList
  obtain ⟨t, ht⟩ :=
    List.reverse_prefix.mpr
      (List.dropWhile_suffix (l := (l.dropWhile isJsWs).reverse) isJsWs)
  rw [List.reverse_reverse] at ht
  exact ⟨t, ht⟩

/-- Normalization survives trimming. -/
theorem wsNormB_jsTrim (l : List Char) (h : wsNormB l = true) :
    wsNormB (jsTrimList l) = true := by
  obtain ⟨t, ht⟩ := jsTrimList_pre l
  exact wsNormB_append_left _ t
    (ht ▸ wsNormB_dropWhile isJsWs l h)

/-- Window-freedom survives trimming. -/
theorem hasPat_jsTrim (l : List Char) (h : hasPat l = false) :
    hasPat (jsTrimList l) = false := by
  obtain ⟨t, ht⟩ := jsTrimList_pre l
  exact hasPat_append_left _ t
    (ht ▸ hasPat_dropWhile isJsWs l h)

/-- Identity of `dropWhile` when the head fails the test. -/
theorem dropWhile_eq_self_of_head (p : Char → Bool) (l : List Char)
    (h : ∀ c, l.head? = some c → p c = false) : l.dropWhile p = l := by
  cases l with
  | nil => rfl
  | cons a t =>
    have := h a rfl
    rw [List.dropWhile_cons_of_neg (by simp [this])]

/-- The trim pass is idempotent. -/
theorem jsTrimList_idem (l : List Char) :
    jsTrimList (jsTrimList l) = jsTrimList l := by
  have hZhead : ∀ c, ((l.dropWhile isJsWs).reverse.dropWhile isJsWs).head? =
      some c → isJsWs c = false := by
    intro c hc
    have h1 := List.head?_dropWhile_not isJsWs (l.dropWhile isJsWs).reverse
    rw [hc] at h1
    exact h1
  have hYhead : ∀ c, (l.dropWhile isJsWs).head? = some c →
      isJsWs c = false := by
    intro c hc
    have h1 := List.head?_dropWhile_not isJsWs l
    rw [hc] at h1
    exact h1
  have hThead : ∀ c, (jsTrimList l).head? = some c → isJsWs c = false := by
    intro c hc
    unfold jsTrimList at hc
    rw [List.head?_reverse] at hc
    -- `getLast?` of the suffix is `getLast?` of the whole reverse
    rcases hsuf : (l.dropWhile isJsWs).reverse.dropWhile isJsWs with _ | ⟨a, t⟩
    · rw [hsuf] at hc
      cases hc
    · obtain ⟨pre, hpre⟩ :=
        List.dropWhile_suffix (l := (l.dropWhile isJsWs).reverse) isJsWs
      rw [hsuf] at hpre hc
      have h2 : (l.dropWhile isJsWs).reverse.getLast? = some c := by
        rw [← hpre, List.getLast?_append_of_ne_nil _ (by simp)]
        exact hc
      rw [List.getLast?_reverse] at h2
      exact hYhead c h2
  have hrev : (jsTrimList l).reverse =
      (l.dropWhile isJsWs).reverse.dropWhile isJsWs := by
    unfold jsTrimList
    rw [List.reverse_reverse]
  rw [show jsTrimList (jsTrimList l) =
      (((jsTrimList l).dropWhile isJsWs).reverse.dropWhile isJsWs).reverse
    from rfl]
  rw [dropWhile_eq_self_of_head isJsWs _ hThead, hrev,
    dropWhile_eq_self_of_head isJsWs _ hZhead, ← hrev,
    List.reverse_reverse]

/-- C4 (amended): `optimizeSVG` is idempotent on every input whose first
pass leaves no removable comment — that is, whenever comment removal is a
fixpoint of the already-optimized output, a second `optimizeSVG` pass
changes nothing.  (The unrestricted claim is false: see
`c4_counterexample`, where overlapping comment markers splice into a new
comment.) -/
theorem c4_optimizeSVG_idem_amended (x : String)
    (h : removeComments (optimizeSVG x) = optimizeSVG x) :
    optimizeSVG (optimizeSVG x) = optimizeSVG x := by
  obtain ⟨hAn, hAp⟩ :=
    (sb_out (collapseWsAux (removeCommentsAux x.data none) false).length
      (collapseWsAux (removeCommentsAux x.data none) false) le_rfl).1
      (cw_norm _ false)
  have hdn : wsNormB (optimizeSVG x).data = true := wsNormB_jsTrim _ hAn
  have hdp : hasPat (optimizeSVG x).data = false := hasPat_jsTrim _ hAp
  have hrc : removeCommentsAux (optimizeSVG x).data none =
      (optimizeSVG x).data := congrArg String.data h
  have hstep : optimizeSVG (optimizeSVG x) =
      ⟨jsTrimList (stripBetweenAux (collapseWsAux
        (removeCommentsAux (optimizeSVG x).data none) false) none)⟩ := rfl
  rw [hstep, hrc, cw_id _ hdn,
    (sb_id (optimizeSVG x).data.length (optimizeSVG x).data le_rfl).1 hdn hdp]
  have hjj : jsTrimList (optimizeSVG x).data = (optimizeSVG x).data :=
    jsTrimList_idem (stripBetweenAux (collapseWsAux
      (removeCommentsAux x.data none) false) none)
  rw [hjj]

/-- Witness for `c4_optimizeSVG_idem_amended` on a small document whose
optimized form has no comment left. -/
theorem c4_optimizeSVG_idem_amended_witness :
    removeComments (optimizeSVG "  <svg> <g><!-- x --> </g>  </svg> ") =
      optimizeSVG "  <svg> <g><!-- x --> </g>  </svg> " ∧
    optimizeSVG (optimizeSVG "  <svg> <g><!-- x --> </g>  </svg> ") =
      optimizeSVG "  <svg> <g><!-- x --> </g>  </svg> " :=
  ⟨by decide,
   c4_optimizeSVG_idem_amended "  <svg> <g><!-- x --> </g>  </svg> "
     (by decide)⟩
